import Mathlib

/-!
Verification of the safety and confirmation subsystem of an MSSQL MCP server.

The development shallowly embeds the TypeScript sources:
* `SafetyConfig.ts` — policy flags, `isDropAllowed`, `requiresApproval`,
  `getOperationSeverity`;
* `serverCapabilities.ts` — `parseVersion`, `extractProductName`,
  `determineCapabilities` (the version-string regex is modelled by an
  explicit leftmost matcher for `\d+\.\d+\.\d+\.\d+`);
* `ConfirmationStore.ts` — `canonicalStringify`, the pending-token map and
  its `create` / `validate` / `cleanup` operations (the JavaScript `Map` is
  modelled as an insertion-ordered association list, `Date.now()` as an
  explicit `Nat` argument, `randomUUID()` as an explicitly supplied fresh
  token, and the SHA-256 digest as the identity on strings — an injective
  digest abstraction);
* `DropTableTool.ts` / `ApprovalHelper.ts` — the drop-table request flow as
  a pure function producing a result, the audit-log records written, and the
  updated store.

Machine integers do not overflow in the modelled code paths (timestamps and
counters), so numbers are `Nat`.
-/

namespace MSSQL

-- =========================================================================
-- SafetyConfig.ts
-- =========================================================================

/-- Policy flags, from `SafetyConfig.ts` (`SafetyConfig` interface). -/
structure SafetyConfig where
  allowDangerousOperations : Bool
  requireApprovalForCreate : Bool
  requireApprovalForUpdate : Bool
  requireApprovalForDelete : Bool
  requireApprovalForInsert : Bool
  allowExecProcedure : Bool
  enableDryRun : Bool
  deriving Repr, DecidableEq

/-- Severity levels, from the `OperationSeverity` enum. -/
inductive OperationSeverity where
  | CRITICAL
  | HIGH
  | MEDIUM
  | LOW
  | SAFE
  deriving Repr, DecidableEq

/-- The `isDropAllowed` from `SafetyConfig.ts`. -/
def isDropAllowed (config : SafetyConfig) : Bool :=
  config.allowDangerousOperations

/-- The `requiresApproval` from `SafetyConfig.ts`.  The TypeScript `switch` on
the operation-type string is mirrored literally; the `default` arm returns
`true`.  Operation kinds are strings so that the default arm is expressible. -/
def requiresApproval (operationType : String) (config : SafetyConfig) : Bool :=
  if operationType = "CREATE" then config.requireApprovalForCreate
  else if operationType = "UPDATE" then config.requireApprovalForUpdate
  else if operationType = "DELETE" then config.requireApprovalForDelete
  else if operationType = "INSERT" then config.requireApprovalForInsert
  else if operationType = "READ" then false
  else if operationType = "EXEC" then false
  else true

/-- The `getOperationSeverity` from `SafetyConfig.ts`; the `default` arm returns
`CRITICAL`. -/
def getOperationSeverity (operationType : String) : OperationSeverity :=
  if operationType = "DROP" then .CRITICAL
  else if operationType = "DELETE" then .HIGH
  else if operationType = "CREATE" then .HIGH
  else if operationType = "UPDATE" then .MEDIUM
  else if operationType = "EXEC" then .MEDIUM
  else if operationType = "INSERT" then .LOW
  else if operationType = "READ" then .SAFE
  else .CRITICAL

-- =========================================================================
-- serverCapabilities.ts
-- =========================================================================

/-- The `ServerVersion` from `serverCapabilities.ts`. -/
structure ServerVersion where
  major : Nat
  minor : Nat
  build : Nat
  revision : Nat
  fullVersion : String
  productName : String
  deriving Repr, DecidableEq

/-- The `ServerCapabilities` from `serverCapabilities.ts`. -/
structure ServerCapabilities where
  version : ServerVersion
  supportsBasicFeatures : Bool
  supportsSequences : Bool
  supportsWindowFunctions : Bool
  supportsColumnstoreIndexes : Bool
  supportsOffset : Bool
  supportsInMemoryOLTP : Bool
  supportsDropIfExists : Bool
  supportsJson : Bool
  supportsStringAgg : Bool
  supportsTemporal : Bool
  supportsAlwaysEncrypted : Bool
  supportsGraphDb : Bool
  supportsStringAggActual : Bool
  supportsUtf8 : Bool
  supportsJsonExtensions : Bool
  deriving Repr, DecidableEq

/-- Numeric value of a (non-empty) digit group, as `parseInt(_, 10)` yields
on it. -/
def digitsToNat (ds : List Char) : Nat :=
  ds.foldl (fun n c => 10 * n + (c.toNat - Char.toNat '0')) 0

/-- Take the maximal leading digit run of `cs`; fail if it is empty.
Returns the run and the remaining characters.  This is the (effectively
backtracking-free) behaviour of a greedy `\d+` followed by a literal dot. -/
def takeDigits (cs : List Char) : Option (List Char × List Char) :=
  let ds := cs.takeWhile Char.isDigit
  if ds.isEmpty then none else some (ds, cs.drop ds.length)

/-- Match the regex `(\d+)\.(\d+)\.(\d+)\.(\d+)` anchored at the head of
`cs`, returning the four capture groups. -/
def matchVersionAt (cs : List Char) : Option (List Char × List Char × List Char × List Char) :=
  match takeDigits cs with
  | none => none
  | some (d1, r1) =>
    match r1 with
    | '.' :: r1 =>
      match takeDigits r1 with
      | none => none
      | some (d2, r2) =>
        match r2 with
        | '.' :: r2 =>
          match takeDigits r2 with
          | none => none
          | some (d3, r3) =>
            match r3 with
            | '.' :: r3 =>
              match takeDigits r3 with
              | none => none
              | some (d4, _) => some (d1, d2, d3, d4)
            | _ => none
        | _ => none
    | _ => none

/-- Leftmost match of `(\d+)\.(\d+)\.(\d+)\.(\d+)` in `cs`, i.e. the
behaviour of `versionString.match(/(\d+)\.(\d+)\.(\d+)\.(\d+)/)`. -/
def findVersion : List Char → Option (List Char × List Char × List Char × List Char)
  | [] => none
  | c :: cs =>
    match matchVersionAt (c :: cs) with
    | some m => some m
    | none => findVersion cs

/-- The literal part of the regex `/Microsoft SQL Server (\d{4})/`. -/
def productLiteral : List Char := "Microsoft SQL Server ".data

/-- Match `/Microsoft SQL Server (\d{4})/` anchored at the head of `cs`,
returning the four digits. -/
def matchProductAt (cs : List Char) : Option (List Char) :=
  if productLiteral.isPrefixOf cs then
    let rest := cs.drop productLiteral.length
    let ds := rest.take 4
    if ds.length = 4 && ds.all Char.isDigit then some ds else none
  else none

/-- Leftmost match of `/Microsoft SQL Server (\d{4})/` in `cs`. -/
def findProduct : List Char → Option (List Char)
  | [] => none
  | c :: cs =>
    match matchProductAt (c :: cs) with
    | some m => some m
    | none => findProduct cs

/-- The `yearMap` object in `extractProductName`. -/
def yearMap (major : Nat) : Option String :=
  if major = 16 then some "SQL Server 2022"
  else if major = 15 then some "SQL Server 2019"
  else if major = 14 then some "SQL Server 2017"
  else if major = 13 then some "SQL Server 2016"
  else if major = 12 then some "SQL Server 2014"
  else if major = 11 then some "SQL Server 2012"
  else if major = 10 then some "SQL Server 2008/2008 R2"
  else if major = 9 then some "SQL Server 2005"
  else none

/-- The `extractProductName` from `serverCapabilities.ts`. -/
def extractProductName (versionString : String) : String :=
  match findProduct versionString.data with
  | some ds => "SQL Server " ++ String.mk ds
  | none =>
    match findVersion versionString.data with
    | some (d1, _, _, _) =>
      let major := digitsToNat d1
      match yearMap major with
      | some name => name
      | none => "SQL Server (version " ++ Nat.repr major ++ ".x)"
    | none => "SQL Server (unknown version)"

/-- The `parseVersion` from `serverCapabilities.ts`: extract the four-part
numeric version, or fall back to the SQL Server 2008 baseline. -/
def parseVersion (versionString : String) : ServerVersion :=
  match findVersion versionString.data with
  | some (d1, d2, d3, d4) =>
    { major := digitsToNat d1
      minor := digitsToNat d2
      build := digitsToNat d3
      revision := digitsToNat d4
      fullVersion := String.mk (d1 ++ '.' :: (d2 ++ '.' :: (d3 ++ '.' :: d4)))
      productName := extractProductName versionString }
  | none =>
    { major := 10
      minor := 0
      build := 0
      revision := 0
      fullVersion := "10.0.0.0"
      productName := "SQL Server 2008 (assumed)" }

/-- The `determineCapabilities` from `serverCapabilities.ts`: every flag is a
threshold test on the major version. -/
def determineCapabilities (version : ServerVersion) : ServerCapabilities :=
  let major := version.major
  { version := version
    supportsBasicFeatures := decide (major ≥ 10)
    supportsSequences := decide (major ≥ 11)
    supportsWindowFunctions := decide (major ≥ 11)
    supportsColumnstoreIndexes := decide (major ≥ 11)
    supportsOffset := decide (major ≥ 11)
    supportsInMemoryOLTP := decide (major ≥ 12)
    supportsDropIfExists := decide (major ≥ 13)
    supportsJson := decide (major ≥ 13)
    supportsTemporal := decide (major ≥ 13)
    supportsAlwaysEncrypted := decide (major ≥ 13)
    supportsStringAgg := decide (major ≥ 14)
    supportsGraphDb := decide (major ≥ 14)
    supportsStringAggActual := decide (major ≥ 14)
    supportsUtf8 := decide (major ≥ 15)
    supportsJsonExtensions := decide (major ≥ 16) }

-- =========================================================================
-- ConfirmationStore.ts : canonical JSON serialization
-- =========================================================================

/-- JSON values, the space of `params` objects handled by
`canonicalStringify`.  Numbers are integers (the modelled parameter sets do
not use fractional numbers). -/
inductive Json where
  | null : Json
  | bool (b : Bool) : Json
  | num (n : Int) : Json
  | str (s : String) : Json
  | arr (elems : List Json) : Json
  | obj (fields : List (String × Json)) : Json
  deriving Repr

mutual

def Json.beq : Json → Json → Bool
  | .null, .null => true
  | .bool a, .bool b => a = b
  | .num a, .num b => a = b
  | .str a, .str b => a = b
  | .arr xs, .arr ys => Json.beqList xs ys
  | .obj fs, .obj gs => Json.beqFields fs gs
  | _, _ => false

def Json.beqList : List Json → List Json → Bool
  | [], [] => true
  | x :: xs, y :: ys => Json.beq x y && Json.beqList xs ys
  | _, _ => false

def Json.beqFields : List (String × Json) → List (String × Json) → Bool
  | [], [] => true
  | (k, v) :: fs, (l, w) :: gs => k = l && Json.beq v w && Json.beqFields fs gs
  | _, _ => false

end

/-- Lexicographic comparison of character lists by code point: the string
order used by the default comparison of JavaScript, which
`Object.keys(value).sort()` applies to the keys. -/
def charListLt : List Char → List Char → Bool
  | [], [] => false
  | [], _ :: _ => true
  | _ :: _, [] => false
  | c :: cs, d :: ds =>
    if c.toNat < d.toNat then true
    else if d.toNat < c.toNat then false
    else charListLt cs ds

/-- String comparison `a < b` as the key sort performs it. -/
def strLt (a b : String) : Bool := charListLt a.data b.data

/-- Stable insertion of a key-value pair into a key-sorted field list: the
pair lands before the first field whose key is not smaller.  Used to model
`Object.keys(value).sort()` (a stable sort comparing the key strings). -/
def insertByKey (p : String × Json) : List (String × Json) → List (String × Json)
  | [] => [p]
  | q :: qs => if strLt q.1 p.1 then q :: insertByKey p qs else p :: q :: qs

/-- Sort a field list by key (stable insertion sort). -/
def sortFields : List (String × Json) → List (String × Json)
  | [] => []
  | p :: ps => insertByKey p (sortFields ps)

mutual

/-- The `sortKeys` from `ConfirmationStore.ts`: recursively sort the keys of
every object; arrays keep their order with elements recursed into; scalars
are returned unchanged. -/
def sortKeys : Json → Json
  | .null => .null
  | .bool b => .bool b
  | .num n => .num n
  | .str s => .str s
  | .arr xs => .arr (sortKeysList xs)
  | .obj fs => .obj (sortFields (sortKeysFields fs))

def sortKeysList : List Json → List Json
  | [] => []
  | x :: xs => sortKeys x :: sortKeysList xs

def sortKeysFields : List (String × Json) → List (String × Json)
  | [] => []
  | (k, v) :: fs => (k, sortKeys v) :: sortKeysFields fs

end

/-- Hexadecimal digit, lower case, as in `\u00XX` escapes. -/
def hexDigit (n : Nat) : Char :=
  if n < 10 then Char.ofNat (Char.toNat '0' + n)
  else Char.ofNat (Char.toNat 'a' + (n - 10))

/-- Escape one character the way `JSON.stringify` escapes string contents. -/
def escapeChar (c : Char) : List Char :=
  if c = '"' then ['\\', '"']
  else if c = '\\' then ['\\', '\\']
  else if c = '\x08' then ['\\', 'b']
  else if c = '\x0c' then ['\\', 'f']
  else if c = '\n' then ['\\', 'n']
  else if c = '\r' then ['\\', 'r']
  else if c = '\t' then ['\\', 't']
  else if c.toNat < 32 then
    ['\\', 'u', '0', '0', hexDigit (c.toNat / 16), hexDigit (c.toNat % 16)]
  else [c]

/-- A JSON string literal: quote and escape. -/
def quoteString (s : String) : String :=
  "\"" ++ String.mk (s.data.flatMap escapeChar) ++ "\""

mutual

/-- The `JSON.stringify` (no spacing), on the `Json` model. -/
def stringify : Json → String
  | .null => "null"
  | .bool true => "true"
  | .bool false => "false"
  | .num n => toString n
  | .str s => quoteString s
  | .arr xs => "[" ++ String.intercalate "," (stringifyList xs) ++ "]"
  | .obj fs => "\x7b" ++ String.intercalate "," (stringifyFields fs) ++ "\x7d"

def stringifyList : List Json → List String
  | [] => []
  | x :: xs => stringify x :: stringifyList xs

def stringifyFields : List (String × Json) → List String
  | [] => []
  | (k, v) :: fs => (quoteString k ++ ":" ++ stringify v) :: stringifyFields fs

end

/-- The `canonicalStringify` from `ConfirmationStore.ts`:
`JSON.stringify(sortKeys(value))`. -/
def canonicalStringify (value : Json) : String :=
  stringify (sortKeys value)

/-- The keys of a field list, in order. -/
def fieldKeys (fs : List (String × Json)) : List String :=
  fs.map Prod.fst

mutual

/-- Relation `jsonEquiv a b` holds when `b` equals `a` up to reordering of object
keys at any nesting depth: scalars must be equal, arrays must match
pointwise, and each field of an object must be found (by key) in the other
object with an equivalent value, the two objects having equally many fields. -/
def jsonEquiv : Json → Json → Bool
  | .null, .null => true
  | .bool a, .bool b => a = b
  | .num a, .num b => a = b
  | .str a, .str b => a = b
  | .arr xs, .arr ys => jsonEquivList xs ys
  | .obj fs, .obj gs => fs.length = gs.length && jsonEquivFields fs gs
  | _, _ => false

def jsonEquivList : List Json → List Json → Bool
  | [], [] => true
  | x :: xs, y :: ys => jsonEquiv x y && jsonEquivList xs ys
  | _, _ => false

/-- Every field of `fs` has a key-matching, value-equivalent field in `gs`. -/
def jsonEquivFields : List (String × Json) → List (String × Json) → Bool
  | [], _ => true
  | (k, v) :: fs, gs =>
    (match gs.lookup k with
     | some w => jsonEquiv v w
     | none => false) && jsonEquivFields fs gs

end

mutual

/-- Object key lists are duplicate-free at every nesting depth — true of
every value produced by JavaScript objects, whose keys are unique. -/
def nodupKeys : Json → Bool
  | .null => true
  | .bool _ => true
  | .num _ => true
  | .str _ => true
  | .arr xs => nodupKeysList xs
  | .obj fs => decide ((fieldKeys fs).Nodup) && nodupKeysFields fs

def nodupKeysList : List Json → Bool
  | [] => true
  | x :: xs => nodupKeys x && nodupKeysList xs

def nodupKeysFields : List (String × Json) → Bool
  | [] => true
  | (_, v) :: fs => nodupKeys v && nodupKeysFields fs

end

-- =========================================================================
-- ConfirmationStore.ts : the store
-- =========================================================================

/-- The `PendingOperation` from `ConfirmationStore.ts`. -/
structure PendingOperation where
  token : String
  operationType : String
  target : String
  queryHash : String
  paramsHash : String
  createdAt : Nat
  used : Bool
  deriving Repr, DecidableEq

/-- The `ValidationResult` from `ConfirmationStore.ts` (`reason` is optional). -/
structure ValidationResult where
  valid : Bool
  reason : Option String := none
  deriving Repr, DecidableEq

/-- The store: the `pending` JavaScript `Map` as an insertion-ordered
association list with unique keys, plus the configured TTL in
milliseconds. -/
structure ConfirmationStore where
  pending : List (String × PendingOperation)
  ttlMs : Nat
  deriving Repr, DecidableEq

namespace ConfirmationStore

/-- The `ConfirmationStore.DEFAULT_TTL_MS` (5 minutes). -/
def DEFAULT_TTL_MS : Nat := 5 * 60 * 1000

/-- The `ConfirmationStore.MAX_PENDING`. -/
def MAX_PENDING : Nat := 100

/-- The SHA-256 digest of `hashString`, abstracted as the identity: the
model identifies a hash with the string it digests (an injective-digest
idealization). -/
def hashString (value : String) : String := value

/-- The `Map.prototype.get`. -/
def mapGet (m : List (String × PendingOperation)) (k : String) : Option PendingOperation :=
  match m.lookup k with
  | some v => some v
  | none => none

/-- The `Map.prototype.set`: overwrite in place when the key exists, else append
(JavaScript maps preserve insertion order). -/
def mapSet (m : List (String × PendingOperation)) (k : String) (v : PendingOperation) :
    List (String × PendingOperation) :=
  if m.any (fun p => p.1 = k) then
    m.map (fun p => if p.1 = k then (k, v) else p)
  else
    m ++ [(k, v)]

/-- The `Map.prototype.delete`: drop the entry with the given key. -/
def mapDelete (m : List (String × PendingOperation)) (k : String) :
    List (String × PendingOperation) :=
  m.filter (fun p => ¬ p.1 = k)

/-- Stable insertion by `createdAt`: the pair lands before the first entry
created strictly later.  Models the stable
`sort((a, b) => a[1].createdAt - b[1].createdAt)`. -/
def insertByCreatedAt (p : String × PendingOperation) :
    List (String × PendingOperation) → List (String × PendingOperation)
  | [] => [p]
  | q :: qs =>
    if q.2.createdAt < p.2.createdAt then q :: insertByCreatedAt p qs
    else p :: q :: qs

/-- Stable sort of the entries by ascending `createdAt`. -/
def sortByCreatedAt : List (String × PendingOperation) → List (String × PendingOperation)
  | [] => []
  | p :: ps => insertByCreatedAt p (sortByCreatedAt ps)

/-- The `cleanup` from `ConfirmationStore.ts` (`now` is `Date.now()`): delete
every expired entry, then, if more than `MAX_PENDING` entries remain, delete
the oldest-created entries until at the cap. -/
def cleanup (now : Nat) (s : ConfirmationStore) : ConfirmationStore :=
  let remaining := s.pending.filter (fun p => ¬ now - p.2.createdAt > s.ttlMs)
  if remaining.length > MAX_PENDING then
    let sorted := sortByCreatedAt remaining
    let excess := sorted.length - MAX_PENDING
    let doomed := (sorted.take excess).map Prod.fst
    { s with pending := remaining.filter (fun p => ¬ doomed.contains p.1) }
  else
    { s with pending := remaining }

/-- The `create` from `ConfirmationStore.ts`.  `token` is the value produced by
`randomUUID()` and `now` the value of `Date.now()`, both supplied
explicitly.  Returns the token and the updated store. -/
def create (token : String) (now : Nat) (operationType target query : String)
    (params : Json) (s : ConfirmationStore) : String × ConfirmationStore :=
  let s := cleanup now s
  let entry : PendingOperation :=
    { token := token
      operationType := operationType
      target := target
      queryHash := hashString query
      paramsHash := hashString (canonicalStringify params)
      createdAt := now
      used := false }
  (token, { s with pending := mapSet s.pending token entry })

/-- The entry `create` inserts for the given arguments (named for use in
statements about `create`). -/
def mkEntry (token : String) (now : Nat) (operationType target query : String)
    (params : Json) : PendingOperation :=
  { token := token
    operationType := operationType
    target := target
    queryHash := hashString query
    paramsHash := hashString (canonicalStringify params)
    createdAt := now
    used := false }

/-- The `validate` from `ConfirmationStore.ts` (`now` is `Date.now()`).  Returns
the `ValidationResult` and the updated store. -/
def validate (token : String) (now : Nat) (query : String) (params : Json)
    (s : ConfirmationStore) : ValidationResult × ConfirmationStore :=
  match mapGet s.pending token with
  | none => (⟨false, some "Token not found or already expired."⟩, s)
  | some entry =>
    if entry.used then
      (⟨false, some "Token has already been used."⟩,
       { s with pending := mapDelete s.pending token })
    else if now - entry.createdAt > s.ttlMs then
      (⟨false, some "Token has expired."⟩,
       { s with pending := mapDelete s.pending token })
    else if ¬ hashString query = entry.queryHash then
      (⟨false, some "Query does not match the original preview."⟩,
       { s with pending := mapDelete s.pending token })
    else if ¬ hashString (canonicalStringify params) = entry.paramsHash then
      (⟨false, some "Parameters do not match the original preview."⟩,
       { s with pending := mapDelete s.pending token })
    else
      -- Success: the source marks the entry used and deletes it in the same
      -- step, so the net store change is the deletion.
      (⟨true, none⟩, { s with pending := mapDelete s.pending token })

/-- Iterate `create` over a list of fresh tokens, all at the same
`Date.now()` instant, with the same operation/target/query/params. -/
def createMany (toks : List String) (now : Nat) (operationType target query : String)
    (params : Json) (s : ConfirmationStore) : ConfirmationStore :=
  toks.foldl (fun s t => (create t now operationType target query params s).2) s

/-- The store states reachable from an empty store by any interleaving of
`create` and `validate` calls at arbitrary times. -/
inductive Reachable : ConfirmationStore → Prop
  | init (ttlMs : Nat) : Reachable ⟨[], ttlMs⟩
  | create {s : ConfirmationStore} (token : String) (now : Nat)
      (operationType target query : String) (params : Json) :
      Reachable s → Reachable (create token now operationType target query params s).2
  | validate {s : ConfirmationStore} (token : String) (now : Nat)
      (query : String) (params : Json) :
      Reachable s → Reachable (validate token now query params s).2

end ConfirmationStore

-- =========================================================================
-- ApprovalHelper.ts
-- =========================================================================

/-- The `OperationLog` from `ApprovalHelper.ts` (one audit record). -/
structure OperationLog where
  timestamp : String
  operationType : String
  target : String
  query : String
  severity : OperationSeverity
  dryRun : Bool
  success : Bool
  error : Option String := none
  deriving Repr, DecidableEq

/-- The string value of an `OperationSeverity` enum member (the enum members
are those strings in the source). -/
def severityString : OperationSeverity → String
  | .CRITICAL => "CRITICAL"
  | .HIGH => "HIGH"
  | .MEDIUM => "MEDIUM"
  | .LOW => "LOW"
  | .SAFE => "SAFE"

/-- The `getSeverityIcon` from `ApprovalHelper.ts`. -/
def getSeverityIcon : OperationSeverity → String
  | .CRITICAL => "🔴"
  | .HIGH => "🟠"
  | .MEDIUM => "🟡"
  | .LOW => "🟢"
  | .SAFE => "✅"

/-- The divider built by `"=".repeat(60)`. -/
def eqRow60 : String := String.mk (List.replicate 60 '=')

/-- The `generateDryRunPreview` from `ApprovalHelper.ts`. -/
def generateDryRunPreview (operationType target query : String)
    (estimatedImpact : Option String) (confirmToken : Option String) : String :=
  let severity := getOperationSeverity operationType
  let icon := getSeverityIcon severity
  icon ++ " DRY RUN PREVIEW - " ++ severityString severity ++ " OPERATION\n"
    ++ eqRow60 ++ "\n\n"
    ++ "Operation Type: " ++ operationType ++ "\n"
    ++ "Target: " ++ target ++ "\n\n"
    ++ "SQL Query:\n" ++ query ++ "\n\n"
    ++ (match estimatedImpact with
        | some impact => "Estimated Impact:\n" ++ impact ++ "\n\n"
        | none => "")
    ++ eqRow60 ++ "\n"
    ++ "⚠️  This is a DRY RUN. No changes have been made to the database.\n"
    ++ (match confirmToken with
        | some tok =>
          "To execute this operation, call the same tool again with \"confirmToken\": \"" ++ tok ++ "\"\n"
        | none => "To execute this operation, set ENABLE_DRY_RUN=false\n")

/-- The `generateDropForbiddenMessage` from `ApprovalHelper.ts`. -/
def generateDropForbiddenMessage (target query : String) : String :=
  "🔴 DANGEROUS OPERATION FORBIDDEN\n"
    ++ eqRow60 ++ "\n\n"
    ++ "DROP operations are FORBIDDEN by default for safety.\n\n"
    ++ "Operation Type: DROP\n"
    ++ "Target: " ++ target ++ "\n\n"
    ++ "SQL Query:\n" ++ query ++ "\n\n"
    ++ eqRow60 ++ "\n"
    ++ "⚠️  DROP operations permanently delete tables/indexes.\n\n"
    ++ "To enable DROP operations:\n"
    ++ "1. Set ALLOW_DANGEROUS_OPERATIONS=true in your configuration\n"
    ++ "2. Use ENABLE_DRY_RUN=true to preview DROP operations before executing\n\n"
    ++ "⛔ WARNING: Enabling dangerous operations can lead to permanent data loss!\n"

-- =========================================================================
-- DropTableTool.ts (the confirmation-flow class)
-- =========================================================================

/-- The character class of the table-name guard regex
`/^[\w\d_.\[\]]+$/`. -/
def isTableNameChar (c : Char) : Bool :=
  c.isAlphanum || c = '_' || c = '.' || c = '[' || c = ']'

/-- The table-name guard: the regex accepts exactly the non-empty strings of
`isTableNameChar` characters. -/
def validTableName (s : String) : Bool :=
  !s.data.isEmpty && s.data.all isTableNameChar

/-- The message of the error thrown when the table-name guard fails. -/
def invalidTableNameMessage : String :=
  "Invalid table name. Table names can only contain letters, numbers, underscores, dots, and brackets."

/-- Behaviour of the MCP elicitation channel during a call: the client
responds with an action string and an `approve` flag, or the channel
fails. -/
inductive ElicitBehavior where
  | responds (action : String) (approve : Bool)
  | fails
  deriving Repr, DecidableEq

/-- Everything a `DropTableTool.run` call produces: the returned result
object (absent fields modelled as `false` / `none`), the audit records
written during the call, and the confirmation store afterwards. -/
structure DropRunOutcome where
  mode : String
  success : Bool
  message : String
  forbidden : Bool := false
  dryRun : Bool := false
  confirmToken : Option String := none
  logs : List OperationLog := []
  store : ConfirmationStore
  deriving Repr, DecidableEq

/-- The `Estimated Impact` text used for DROP previews. -/
def dropImpact : String := "This will permanently delete the table and all its data."

/-- The execution tail of `DropTableTool.run` (`await query` and the logging
on either outcome); `execOk` says whether the database accepted the query
and `execError` is the message of the error it threw otherwise. -/
def executeDrop (tableName query startTime : String) (versionWarning : Option String)
    (store : ConfirmationStore) (execOk : Bool) (execError : String) : DropRunOutcome :=
  if execOk then
    { mode := "executed"
      success := true
      message := "Table \x27" ++ tableName ++ "\x27 dropped successfully."
        ++ (match versionWarning with | some w => "\n" ++ w | none => "")
      logs := [{ timestamp := startTime, operationType := "DROP", target := tableName,
                 query := query, severity := .CRITICAL, dryRun := false, success := true }]
      store := store }
  else
    { mode := "error"
      success := false
      message := "Failed to drop table: Error: " ++ execError
      logs := [{ timestamp := startTime, operationType := "DROP",
                 target := if tableName = "" then "unknown" else tableName,
                 query := "DROP TABLE [" ++ tableName ++ "]",
                 severity := .CRITICAL, dryRun := false, success := false,
                 error := some execError }]
      store := store }

/-- The `DropTableTool.run` from `DropTableTool.ts` as a pure function.  The
ambient effects are explicit arguments: `capabilities` is
`getServerCapabilities()`, `elicit` the optional elicitation channel and its
behaviour, `freshToken` the value `randomUUID()` would produce inside
`create`, `startTime` the ISO timestamp taken on entry, `now` the value of
`Date.now()`, `store` the confirmation-store state, and `execOk`/`execError`
the response of the database to the final query. -/
def DropTableTool.run (safetyConfig : SafetyConfig) (capabilities : Option ServerCapabilities)
    (tableName : String) (ifExists : Bool) (confirmToken : Option String)
    (elicit : Option ElicitBehavior) (freshToken : String) (startTime : String)
    (now : Nat) (store : ConfirmationStore) (execOk : Bool) (execError : String) :
    DropRunOutcome :=
  if ¬ validTableName tableName then
    -- The guard throws; the catch block writes an audit record and returns
    -- an error result.
    { mode := "error"
      success := false
      message := "Failed to drop table: Error: " ++ invalidTableNameMessage
      logs := [{ timestamp := startTime, operationType := "DROP",
                 target := if tableName = "" then "unknown" else tableName,
                 query := "DROP TABLE [" ++ tableName ++ "]",
                 severity := .CRITICAL, dryRun := false, success := false,
                 error := some invalidTableNameMessage }]
      store := store }
  else
    let supportsIfExists := match capabilities with
      | some c => c.supportsDropIfExists
      | none => false
    let useIfExists := ifExists && supportsIfExists
    let query := if useIfExists then "DROP TABLE IF EXISTS [" ++ tableName ++ "]"
                 else "DROP TABLE [" ++ tableName ++ "]"
    let productLabel := match capabilities with
      | some c => if c.version.productName = "" then "this SQL Server version"
                  else c.version.productName
      | none => "this SQL Server version"
    let versionWarning : Option String :=
      if ¬ useIfExists && (ifExists && !supportsIfExists) then
        some ("Note: IF EXISTS syntax requested but not supported on " ++ productLabel
          ++ ". Using standard DROP TABLE instead.")
      else none
    let originalParams : Json := .obj [("tableName", .str tableName)]
    if ¬ isDropAllowed safetyConfig then
      { mode := "forbidden"
        success := false
        message := generateDropForbiddenMessage tableName query
        forbidden := true
        store := store }
    else if safetyConfig.enableDryRun then
      match confirmToken with
      | some tok =>
        -- Priority 1: token-based confirmation.
        let res := ConfirmationStore.validate tok now query originalParams store
        if res.1.valid then
          executeDrop tableName query startTime versionWarning res.2 execOk execError
        else
          { mode := "confirmation_failed"
            success := false
            message := "Confirmation failed: "
              ++ (match res.1.reason with | some r => r | none => "undefined")
            store := res.2 }
      | none =>
        match elicit with
        | some (.responds action approve) =>
          -- Priority 2: elicitation-based confirmation.
          if action = "accept" && approve then
            executeDrop tableName query startTime versionWarning store execOk execError
          else
            { mode := "preview"
              success := true
              message := generateDryRunPreview "DROP" tableName query (some dropImpact) none
                ++ "\nOperation declined by user."
              dryRun := true
              store := store }
        | some .fails =>
          -- Elicitation failed: fall back to the token flow.
          let res := ConfirmationStore.create freshToken now "DROP" tableName query originalParams store
          { mode := "preview"
            success := true
            message := generateDryRunPreview "DROP" tableName query (some dropImpact) none
            dryRun := true
            confirmToken := some res.1
            logs := [{ timestamp := startTime, operationType := "DROP", target := tableName,
                       query := query, severity := .CRITICAL, dryRun := true, success := true }]
            store := res.2 }
        | none =>
          -- Priority 3: token preview.
          let res := ConfirmationStore.create freshToken now "DROP" tableName query originalParams store
          { mode := "preview"
            success := true
            message := generateDryRunPreview "DROP" tableName query (some dropImpact) none
            dryRun := true
            confirmToken := some res.1
            logs := [{ timestamp := startTime, operationType := "DROP", target := tableName,
                       query := query, severity := .CRITICAL, dryRun := true, success := true }]
            store := res.2 }
    else
      executeDrop tableName query startTime versionWarning store execOk execError

-- =========================================================================
-- Theorems
-- =========================================================================

/-- C5: `requiresApproval` returns `false` for READ and EXEC under every
policy; for CREATE, UPDATE, DELETE and INSERT it returns exactly the value
of the corresponding `requireApprovalFor*` flag; and for any other kind it
returns `true`. -/
theorem requiresApproval_spec (config : SafetyConfig) :
    requiresApproval "READ" config = false ∧
    requiresApproval "EXEC" config = false ∧
    requiresApproval "CREATE" config = config.requireApprovalForCreate ∧
    requiresApproval "UPDATE" config = config.requireApprovalForUpdate ∧
    requiresApproval "DELETE" config = config.requireApprovalForDelete ∧
    requiresApproval "INSERT" config = config.requireApprovalForInsert ∧
    ∀ kind : String,
      kind ∉ ["CREATE", "UPDATE", "DELETE", "INSERT", "READ", "EXEC"] →
      requiresApproval kind config = true := by
  refine ⟨rfl, rfl, rfl, rfl, rfl, rfl, ?_⟩
  intro kind h
  simp only [List.mem_cons, List.not_mem_nil, or_false, not_or] at h
  obtain ⟨h1, h2, h3, h4, h5, h6⟩ := h
  simp [requiresApproval, h1, h2, h3, h4, h5, h6]

/-- Witness for `requiresApproval_spec` at a concrete policy and the
concrete unknown kind "ALTER". -/
theorem requiresApproval_spec_witness :
    ("ALTER" : String) ∉ ["CREATE", "UPDATE", "DELETE", "INSERT", "READ", "EXEC"] ∧
    requiresApproval "ALTER" ⟨true, false, true, false, true, false, true⟩ = true :=
  ⟨by decide,
   (requiresApproval_spec ⟨true, false, true, false, true, false, true⟩).2.2.2.2.2.2
     "ALTER" (by decide)⟩

/-- C6: `getOperationSeverity` is a pure total function mapping
DROP↦CRITICAL, DELETE↦HIGH, CREATE↦HIGH, UPDATE↦MEDIUM, EXEC↦MEDIUM,
INSERT↦LOW, READ↦SAFE, and any unrecognized kind to CRITICAL; two calls on
the same kind agree. -/
theorem getOperationSeverity_spec :
    getOperationSeverity "DROP" = .CRITICAL ∧
    getOperationSeverity "DELETE" = .HIGH ∧
    getOperationSeverity "CREATE" = .HIGH ∧
    getOperationSeverity "UPDATE" = .MEDIUM ∧
    getOperationSeverity "EXEC" = .MEDIUM ∧
    getOperationSeverity "INSERT" = .LOW ∧
    getOperationSeverity "READ" = .SAFE ∧
    (∀ kind : String,
      kind ∉ ["DROP", "DELETE", "CREATE", "UPDATE", "EXEC", "INSERT", "READ"] →
      getOperationSeverity kind = .CRITICAL) ∧
    (∀ kind : String, getOperationSeverity kind = getOperationSeverity kind) := by
  refine ⟨rfl, rfl, rfl, rfl, rfl, rfl, rfl, ?_, fun _ => rfl⟩
  intro kind h
  simp only [List.mem_cons, List.not_mem_nil, or_false, not_or] at h
  obtain ⟨h1, h2, h3, h4, h5, h6, h7⟩ := h
  simp [getOperationSeverity, h1, h2, h3, h4, h5, h6, h7]

/-- Witness for `getOperationSeverity_spec` at the concrete unknown kind
"TRUNCATE". -/
theorem getOperationSeverity_spec_witness :
    ("TRUNCATE" : String) ∉ ["DROP", "DELETE", "CREATE", "UPDATE", "EXEC", "INSERT", "READ"] ∧
    getOperationSeverity "TRUNCATE" = .CRITICAL :=
  ⟨by decide, (getOperationSeverity_spec).2.2.2.2.2.2.2.1 "TRUNCATE" (by decide)⟩

/-- C7: every `supports*` flag of `determineCapabilities` is the threshold
test `major ≥ T` with the fixed per-feature thresholds, and is therefore
monotone in the major version: true for every `major ≥ T` and false for
every `major < T`. -/
theorem determineCapabilities_thresholds (v : ServerVersion) :
    ((determineCapabilities v).supportsSequences = decide (v.major ≥ 11)) ∧
    ((determineCapabilities v).supportsWindowFunctions = decide (v.major ≥ 11)) ∧
    ((determineCapabilities v).supportsOffset = decide (v.major ≥ 11)) ∧
    ((determineCapabilities v).supportsInMemoryOLTP = decide (v.major ≥ 12)) ∧
    ((determineCapabilities v).supportsDropIfExists = decide (v.major ≥ 13)) ∧
    ((determineCapabilities v).supportsJson = decide (v.major ≥ 13)) ∧
    ((determineCapabilities v).supportsTemporal = decide (v.major ≥ 13)) ∧
    ((determineCapabilities v).supportsAlwaysEncrypted = decide (v.major ≥ 13)) ∧
    ((determineCapabilities v).supportsStringAgg = decide (v.major ≥ 14)) ∧
    ((determineCapabilities v).supportsGraphDb = decide (v.major ≥ 14)) ∧
    ((determineCapabilities v).supportsUtf8 = decide (v.major ≥ 15)) ∧
    ((determineCapabilities v).supportsJsonExtensions = decide (v.major ≥ 16)) ∧
    (∀ T : Nat, (v.major ≥ T → decide (v.major ≥ T) = true) ∧
      (v.major < T → decide (v.major ≥ T) = false)) := by
  refine ⟨rfl, rfl, rfl, rfl, rfl, rfl, rfl, rfl, rfl, rfl, rfl, rfl, fun T => ⟨?_, ?_⟩⟩
  · intro h; simpa using h
  · intro h; simp; omega

/-- Witness for `determineCapabilities_thresholds` at major version 13. -/
theorem determineCapabilities_thresholds_witness :
    ((determineCapabilities ⟨13, 0, 0, 0, "13.0.0.0", "SQL Server 2016"⟩).supportsJson
      = decide ((13 : Nat) ≥ 13)) ∧
    ((13 : Nat) ≥ 11 → decide ((13 : Nat) ≥ 11) = true) ∧
    ((13 : Nat) < 14 → decide ((13 : Nat) ≥ 14) = false) :=
  ⟨(determineCapabilities_thresholds ⟨13, 0, 0, 0, "13.0.0.0", "SQL Server 2016"⟩).2.2.2.2.2.1,
   ((determineCapabilities_thresholds ⟨13, 0, 0, 0, "13.0.0.0", "SQL Server 2016"⟩).2.2.2.2.2.2.2.2.2.2.2.2 11).1,
   ((determineCapabilities_thresholds ⟨13, 0, 0, 0, "13.0.0.0", "SQL Server 2016"⟩).2.2.2.2.2.2.2.2.2.2.2.2 14).2⟩

/-- C8: an input with no four-part dotted numeric token parses to the
baseline version (major 10), whose capability set has every `supports*`
flag false except `supportsBasicFeatures`; and the 2019 version string
parses to major 15 with JSON, UTF-8 and graph support but no 2022 JSON
extensions. -/
theorem parseVersion_fallback_and_2019 :
    (∀ s : String, findVersion s.data = none →
      parseVersion s = ⟨10, 0, 0, 0, "10.0.0.0", "SQL Server 2008 (assumed)"⟩ ∧
      (determineCapabilities (parseVersion s)).supportsBasicFeatures = true ∧
      (determineCapabilities (parseVersion s)).supportsSequences = false ∧
      (determineCapabilities (parseVersion s)).supportsWindowFunctions = false ∧
      (determineCapabilities (parseVersion s)).supportsColumnstoreIndexes = false ∧
      (determineCapabilities (parseVersion s)).supportsOffset = false ∧
      (determineCapabilities (parseVersion s)).supportsInMemoryOLTP = false ∧
      (determineCapabilities (parseVersion s)).supportsDropIfExists = false ∧
      (determineCapabilities (parseVersion s)).supportsJson = false ∧
      (determineCapabilities (parseVersion s)).supportsStringAgg = false ∧
      (determineCapabilities (parseVersion s)).supportsTemporal = false ∧
      (determineCapabilities (parseVersion s)).supportsAlwaysEncrypted = false ∧
      (determineCapabilities (parseVersion s)).supportsGraphDb = false ∧
      (determineCapabilities (parseVersion s)).supportsStringAggActual = false ∧
      (determineCapabilities (parseVersion s)).supportsUtf8 = false ∧
      (determineCapabilities (parseVersion s)).supportsJsonExtensions = false) ∧
    ((parseVersion "Microsoft SQL Server 2019 (RTM) - 15.0.2000.5...").major = 15 ∧
      (determineCapabilities (parseVersion "Microsoft SQL Server 2019 (RTM) - 15.0.2000.5...")).supportsJson = true ∧
      (determineCapabilities (parseVersion "Microsoft SQL Server 2019 (RTM) - 15.0.2000.5...")).supportsUtf8 = true ∧
      (determineCapabilities (parseVersion "Microsoft SQL Server 2019 (RTM) - 15.0.2000.5...")).supportsGraphDb = true ∧
      (determineCapabilities (parseVersion "Microsoft SQL Server 2019 (RTM) - 15.0.2000.5...")).supportsJsonExtensions = false) := by
  constructor
  · intro s h
    have hp : parseVersion s = ⟨10, 0, 0, 0, "10.0.0.0", "SQL Server 2008 (assumed)"⟩ := by
      unfold parseVersion
      rw [h]
    rw [hp]
    exact ⟨rfl, rfl, rfl, rfl, rfl, rfl, rfl, rfl, rfl, rfl, rfl, rfl, rfl, rfl, rfl, rfl⟩
  · exact ⟨by decide, by decide, by decide, by decide, by decide⟩

/-- Witness for `parseVersion_fallback_and_2019` at the unparseable version
string "hello". -/
theorem parseVersion_fallback_and_2019_witness :
    findVersion ("hello" : String).data = none ∧
    parseVersion "hello" = ⟨10, 0, 0, 0, "10.0.0.0", "SQL Server 2008 (assumed)"⟩ :=
  ⟨by decide, ((parseVersion_fallback_and_2019).1 "hello" (by decide)).1⟩

-- -------------------------------------------------------------------------
-- Association-list lookup lemmas
-- -------------------------------------------------------------------------

theorem lookup_eq_none_of_forall_ne {α β : Type} [BEq α] [LawfulBEq α] :
    ∀ {m : List (α × β)} {k : α}, (∀ e ∈ m, e.1 ≠ k) → m.lookup k = none
  | [], _, _ => rfl
  | (a, b) :: m, k, h => by
    have ha : a ≠ k := h (a, b) (List.mem_cons_self _ _)
    have hbeq : (k == a) = false := by
      simp only [beq_eq_false_iff_ne]
      exact fun e => ha e.symm
    simp only [List.lookup, hbeq]
    exact lookup_eq_none_of_forall_ne (fun e he => h e (List.mem_cons_of_mem _ he))

theorem mem_of_lookup_eq_some {α β : Type} [BEq α] [LawfulBEq α] :
    ∀ {m : List (α × β)} {k : α} {v : β}, m.lookup k = some v → (k, v) ∈ m
  | (a, b) :: m, k, v, h => by
    by_cases hk : k = a
    · subst hk
      simp only [List.lookup, beq_self_eq_true] at h
      cases h
      exact List.mem_cons_self _ _
    · have hbeq : (k == a) = false := by simp [hk]
      simp only [List.lookup, hbeq] at h
      exact List.mem_cons_of_mem _ (mem_of_lookup_eq_some h)

namespace ConfirmationStore

theorem lookup_replace : ∀ {m : List (String × PendingOperation)} {k : String}
    (v : PendingOperation), (∃ p ∈ m, p.1 = k) →
    (m.map (fun p => if p.1 = k then (k, v) else p)).lookup k = some v
  | [], _, _, hk => by simp at hk
  | (a, b) :: m, k, v, hk => by
    by_cases hp : a = k
    · have h1 : ((a, b) :: m).map (fun p => if p.1 = k then (k, v) else p)
          = (k, v) :: m.map (fun p => if p.1 = k then (k, v) else p) := by
        simp [hp]
      rw [h1]
      simp [List.lookup]
    · have h1 : ((a, b) :: m).map (fun p => if p.1 = k then (k, v) else p)
          = (a, b) :: m.map (fun p => if p.1 = k then (k, v) else p) := by
        simp [hp]
      have hbeq : (k == a) = false := by
        simp only [beq_eq_false_iff_ne]
        exact fun e => hp e.symm
      rw [h1]
      simp only [List.lookup, hbeq]
      apply lookup_replace
      rcases hk with ⟨q, hq, hqk⟩
      rcases List.mem_cons.mp hq with h | h
      · exact absurd (by rw [h] at hqk; exact hqk) hp
      · exact ⟨q, h, hqk⟩

theorem lookup_append_fresh {m : List (String × PendingOperation)} {k : String}
    {v : PendingOperation} (h : ∀ e ∈ m, e.1 ≠ k) :
    (m ++ [(k, v)]).lookup k = some v := by
  induction m with
  | nil => simp [List.lookup]
  | cons p m ih =>
    have hp : p.1 ≠ k := h p (List.mem_cons_self _ _)
    have hbeq : (k == p.1) = false := by
      simp only [beq_eq_false_iff_ne]
      exact fun e => hp e.symm
    simp only [List.cons_append, List.lookup, hbeq]
    exact ih (fun e he => h e (List.mem_cons_of_mem _ he))

/-- The `Map.set` followed by `Map.get` of the same key yields the new value. -/
theorem mapGet_mapSet_self (m : List (String × PendingOperation)) (k : String)
    (v : PendingOperation) : mapGet (mapSet m k v) k = some v := by
  unfold mapSet
  split
  · rename_i hany
    have hk : ∃ p ∈ m, p.1 = k := by
      simpa only [List.any_eq_true, decide_eq_true_eq] using hany
    unfold mapGet
    rw [lookup_replace v hk]
  · rename_i hany
    have hfresh : ∀ e ∈ m, e.1 ≠ k := by
      intro e he hk
      apply hany
      simp only [List.any_eq_true, decide_eq_true_eq]
      exact ⟨e, he, hk⟩
    unfold mapGet
    rw [lookup_append_fresh hfresh]

/-- The `Map.delete` followed by `Map.get` of the same key yields nothing. -/
theorem mapGet_mapDelete_self (m : List (String × PendingOperation)) (k : String) :
    mapGet (mapDelete m k) k = none := by
  unfold mapGet mapDelete
  rw [lookup_eq_none_of_forall_ne]
  intro e he
  simpa using (List.mem_filter.mp he).2

theorem mem_of_mapGet_eq_some {m : List (String × PendingOperation)} {k : String}
    {v : PendingOperation} (h : mapGet m k = some v) : (k, v) ∈ m := by
  unfold mapGet at h
  cases hl : m.lookup k with
  | none => rw [hl] at h; cases h
  | some w => rw [hl] at h; cases h; exact mem_of_lookup_eq_some hl

theorem cleanup_ttlMs (now : Nat) (s : ConfirmationStore) :
    (cleanup now s).ttlMs = s.ttlMs := by
  unfold cleanup
  dsimp only
  split <;> rfl

theorem mem_cleanup {now : Nat} {s : ConfirmationStore} {p : String × PendingOperation}
    (h : p ∈ (cleanup now s).pending) : p ∈ s.pending := by
  unfold cleanup at h
  dsimp only at h
  split at h
  · exact (List.mem_filter.mp (List.mem_filter.mp h).1).1
  · exact (List.mem_filter.mp h).1

theorem mem_mapSet {m : List (String × PendingOperation)} {k : String}
    {v : PendingOperation} {p : String × PendingOperation}
    (h : p ∈ mapSet m k v) : p = (k, v) ∨ p ∈ m := by
  unfold mapSet at h
  split at h
  · rcases List.mem_map.mp h with ⟨q, hq, hqe⟩
    by_cases hqk : q.1 = k
    · left; rw [← hqe, if_pos hqk]
    · right; rw [← hqe, if_neg hqk]; exact hq
  · rcases List.mem_append.mp h with h | h
    · right; exact h
    · left; simpa using h

/-- Every entry of every reachable store has `used = false`: `create` only
inserts `used = false` entries, and every `validate` branch either leaves
the map unchanged or deletes an entry. -/
theorem pending_used_false {s : ConfirmationStore} (h : Reachable s) :
    ∀ p ∈ s.pending, p.2.used = false := by
  induction h with
  | init ttlMs => intro p hp; simp at hp
  | create token now operationType target query params hre ih =>
    intro p hp
    simp only [ConfirmationStore.create] at hp
    rcases mem_mapSet hp with h | h
    · rw [h]
    · exact ih p (mem_cleanup h)
  | validate token now query params hre ih =>
    intro p hp
    rename_i s'
    unfold ConfirmationStore.validate at hp
    cases hget : mapGet s'.pending token with
    | none => rw [hget] at hp; exact ih p hp
    | some entry =>
      rw [hget] at hp
      dsimp only at hp
      split at hp
      · exact ih p ((List.mem_filter.mp hp).1)
      · split at hp
        · exact ih p ((List.mem_filter.mp hp).1)
        · split at hp
          · exact ih p ((List.mem_filter.mp hp).1)
          · split at hp
            · exact ih p ((List.mem_filter.mp hp).1)
            · exact ih p ((List.mem_filter.mp hp).1)

/-- C10: in every reachable store state every pending entry has
`used = false` — a successful `validate` deletes the entry in the same step
that marks it used and no other operation sets `used` — so no `validate`
call on a reachable state can ever return the reason
"Token has already been used.". -/
theorem pending_entries_never_used (s : ConfirmationStore) (h : Reachable s) :
    (∀ p ∈ s.pending, p.2.used = false) ∧
    ∀ (token : String) (now : Nat) (query : String) (params : Json),
      (validate token now query params s).1.reason ≠ some "Token has already been used." := by
  refine ⟨pending_used_false h, ?_⟩
  intro token now query params
  unfold validate
  cases hget : mapGet s.pending token with
  | none => simp
  | some entry =>
    have hused : entry.used = false :=
      pending_used_false h (token, entry) (mem_of_mapGet_eq_some hget)
    dsimp only
    rw [hused]
    simp only [Bool.false_eq_true, if_false]
    split
    · simp
    · split
      · simp
      · split
        · simp
        · simp

/-- Witness for `pending_entries_never_used` at the empty store. -/
theorem pending_entries_never_used_witness :
    (∀ p ∈ (⟨[], 300000⟩ : ConfirmationStore).pending, p.2.used = false) ∧
    ∀ (token : String) (now : Nat) (query : String) (params : Json),
      (validate token now query params ⟨[], 300000⟩).1.reason
        ≠ some "Token has already been used." :=
  pending_entries_never_used ⟨[], 300000⟩ (Reachable.init 300000)

/-- C9: a token still present in a reachable store whose age exceeds the TTL
fails validation with the expiry reason, even when the supplied query and
params match the original. -/
theorem validate_expired_fails (s : ConfirmationStore) (token : String) (now : Nat)
    (query : String) (params : Json) (entry : PendingOperation)
    (hre : Reachable s) (hget : mapGet s.pending token = some entry)
    (hexp : now - entry.createdAt > s.ttlMs) :
    (validate token now query params s).1 = ⟨false, some "Token has expired."⟩ := by
  have hused : entry.used = false :=
    pending_used_false hre (token, entry) (mem_of_mapGet_eq_some hget)
  unfold validate
  rw [hget]
  dsimp only
  rw [hused]
  simp [hexp]

/-- Witness for `validate_expired_fails`: a token created at time 0 in a
store with a 10 ms TTL, validated at time 11 with the original query and
params. -/
theorem validate_expired_fails_witness :
    (validate "t" 11 "Q" Json.null
        (create "t" 0 "DROP" "T" "Q" Json.null ⟨[], 10⟩).2).1
      = ⟨false, some "Token has expired."⟩ :=
  validate_expired_fails (create "t" 0 "DROP" "T" "Q" Json.null ⟨[], 10⟩).2
    "t" 11 "Q" Json.null ⟨"t", "DROP", "T", "Q", "null", 0, false⟩
    (Reachable.create "t" 0 "DROP" "T" "Q" Json.null (Reachable.init 10))
    (by decide) (by decide)

/-- C1 counterexample: for a concrete token created for a concrete query
and params, the first `validate` succeeds, but the second identical call
reports "Token not found or already expired." — not
"Token has already been used." as the claim states — because the success
path already deleted the entry. -/
theorem validate_second_reason_counterexample :
    ((validate "tok-1" 0 "DROP TABLE [T]" Json.null
        (create "tok-1" 0 "DROP" "T" "DROP TABLE [T]" Json.null ⟨[], 300000⟩).2).1
      = ⟨true, none⟩) ∧
    ((validate "tok-1" 0 "DROP TABLE [T]" Json.null
        (validate "tok-1" 0 "DROP TABLE [T]" Json.null
          (create "tok-1" 0 "DROP" "T" "DROP TABLE [T]" Json.null ⟨[], 300000⟩).2).2).1
      = ⟨false, some "Token not found or already expired."⟩) ∧
    ¬ ((validate "tok-1" 0 "DROP TABLE [T]" Json.null
        (validate "tok-1" 0 "DROP TABLE [T]" Json.null
          (create "tok-1" 0 "DROP" "T" "DROP TABLE [T]" Json.null ⟨[], 300000⟩).2).2).1.reason
      = some "Token has already been used.") := by
  refine ⟨by decide, by decide, by decide⟩

/-- C1 (amended): a token created for `(Q, P)` validates successfully
exactly once within the TTL; the second call with the same token and
identical `Q`, `P` fails, with reason "Token not found or already expired."
(the success path removes the entry, so reuse reports not-found rather than
"already used"). -/
theorem validate_exactly_once (s : ConfirmationStore) (token : String)
    (now now1 now2 : Nat) (operationType target query : String) (params : Json)
    (httl : now1 - now ≤ s.ttlMs) :
    ((validate token now1 query params
        (create token now operationType target query params s).2).1
      = ⟨true, none⟩) ∧
    ((validate token now2 query params
        (validate token now1 query params
          (create token now operationType target query params s).2).2).1
      = ⟨false, some "Token not found or already expired."⟩) := by
  have hpend : (create token now operationType target query params s).2.pending
      = mapSet (cleanup now s).pending token
          ⟨token, operationType, target, query, canonicalStringify params, now, false⟩ := rfl
  have httlpres : (create token now operationType target query params s).2.ttlMs = s.ttlMs := by
    show (cleanup now s).ttlMs = s.ttlMs
    exact cleanup_ttlMs now s
  have hget : mapGet (create token now operationType target query params s).2.pending token
      = some ⟨token, operationType, target, query, canonicalStringify params, now, false⟩ := by
    rw [hpend]
    exact mapGet_mapSet_self _ _ _
  have hval1 : validate token now1 query params
      (create token now operationType target query params s).2
      = (⟨true, none⟩,
         { (create token now operationType target query params s).2 with
            pending := mapDelete
              (create token now operationType target query params s).2.pending token }) := by
    unfold validate
    rw [hget]
    dsimp only
    rw [httlpres]
    have hnotexp : ¬ now1 - now > s.ttlMs := Nat.not_lt.mpr httl
    rw [if_neg hnotexp]
    simp [hashString]
  refine ⟨by rw [hval1], ?_⟩
  rw [hval1]
  have hnone : mapGet
      (mapDelete (create token now operationType target query params s).2.pending token) token
      = none := mapGet_mapDelete_self _ _
  unfold validate
  dsimp only
  rw [hnone]

/-- Witness for `validate_exactly_once` at a concrete store, token, query
and params. -/
theorem validate_exactly_once_witness :
    ((0 : Nat) - 0 ≤ (⟨[], 300000⟩ : ConfirmationStore).ttlMs) ∧
    ((validate "w1" 0 "Q" (Json.num 7)
        (create "w1" 0 "UPDATE" "T" "Q" (Json.num 7) ⟨[], 300000⟩).2).1
      = ⟨true, none⟩) ∧
    ((validate "w1" 5 "Q" (Json.num 7)
        (validate "w1" 0 "Q" (Json.num 7)
          (create "w1" 0 "UPDATE" "T" "Q" (Json.num 7) ⟨[], 300000⟩).2).2).1
      = ⟨false, some "Token not found or already expired."⟩) :=
  ⟨by decide,
   (validate_exactly_once ⟨[], 300000⟩ "w1" 0 0 5 "UPDATE" "T" "Q" (Json.num 7) (by decide)).1,
   (validate_exactly_once ⟨[], 300000⟩ "w1" 0 0 5 "UPDATE" "T" "Q" (Json.num 7) (by decide)).2⟩

theorem cleanup_eq_self (now : Nat) (s : ConfirmationStore)
    (hage : ∀ e ∈ s.pending, now - e.2.createdAt ≤ s.ttlMs)
    (hlen : s.pending.length ≤ MAX_PENDING) :
    cleanup now s = s := by
  unfold cleanup
  have hfilter : s.pending.filter (fun p => ¬ now - p.2.createdAt > s.ttlMs) = s.pending := by
    apply List.filter_eq_self.mpr
    intro p hp
    simpa using Nat.not_lt.mpr (hage p hp)
  dsimp only
  rw [hfilter, if_neg (by omega)]

theorem create_fresh_append (t : String) (now : Nat) (operationType target query : String)
    (params : Json) (s : ConfirmationStore)
    (hage : ∀ e ∈ s.pending, now - e.2.createdAt ≤ s.ttlMs)
    (hlen : s.pending.length ≤ MAX_PENDING)
    (hfresh : ∀ e ∈ s.pending, e.1 ≠ t) :
    (create t now operationType target query params s).2
      = ⟨s.pending ++ [(t, mkEntry t now operationType target query params)], s.ttlMs⟩ := by
  unfold create
  dsimp only
  rw [cleanup_eq_self now s hage hlen]
  unfold mapSet
  rw [if_neg]
  · rfl
  · intro hany
    rcases List.any_eq_true.mp hany with ⟨p, hp, hpk⟩
    exact hfresh p hp (by simpa using hpk)

theorem createMany_fresh (now : Nat) (operationType target query : String) (params : Json) :
    ∀ (toks : List String) (s : ConfirmationStore),
    (∀ e ∈ s.pending, e.2.createdAt = now) →
    ((s.pending.map Prod.fst) ++ toks).Nodup →
    s.pending.length + toks.length ≤ MAX_PENDING + 1 →
    createMany toks now operationType target query params s
      = ⟨s.pending ++ toks.map (fun t => (t, mkEntry t now operationType target query params)),
         s.ttlMs⟩
  | [], s, _, _, _ => by simp [createMany]
  | t :: ts, s, hage, hnodup, hlen => by
    have hdisj : (s.pending.map Prod.fst).Disjoint (t :: ts) :=
      (List.nodup_append.mp hnodup).2.2
    have hstep := create_fresh_append t now operationType target query params s
      (fun e he => by rw [hage e he]; simp)
      (by simp at hlen; omega)
      (fun e he hek =>
        hdisj (List.mem_map_of_mem Prod.fst he) (hek ▸ List.mem_cons_self t ts))
    have hrec := createMany_fresh now operationType target query params ts
      ⟨s.pending ++ [(t, mkEntry t now operationType target query params)], s.ttlMs⟩
      (by
        intro e he
        rcases List.mem_append.mp he with h | h
        · exact hage e h
        · simp at h; rw [h]; rfl)
      (by
        simp only [List.map_append]
        rw [List.append_assoc]
        simpa using hnodup)
      (by simp at hlen ⊢; omega)
    show createMany ts now operationType target query params
        (create t now operationType target query params s).2 = _
    rw [hstep, hrec]
    simp [List.append_assoc]

theorem insertByCreatedAt_const (now : Nat) (p : String × PendingOperation)
    (l : List (String × PendingOperation)) (hp : p.2.createdAt = now)
    (hl : ∀ e ∈ l, e.2.createdAt = now) : insertByCreatedAt p l = p :: l := by
  cases l with
  | nil => rfl
  | cons q qs =>
    unfold insertByCreatedAt
    rw [if_neg]
    rw [hp, hl q (List.mem_cons_self q qs)]
    exact lt_irrefl now

theorem sortByCreatedAt_const (now : Nat) :
    ∀ l : List (String × PendingOperation),
    (∀ e ∈ l, e.2.createdAt = now) → sortByCreatedAt l = l
  | [], _ => rfl
  | p :: ps, h => by
    unfold sortByCreatedAt
    rw [sortByCreatedAt_const now ps (fun e he => h e (List.mem_cons_of_mem p he))]
    exact insertByCreatedAt_const now p ps (h p (List.mem_cons_self p ps))
      (fun e he => h e (List.mem_cons_of_mem p he))

set_option maxRecDepth 1000000 in
/-- C2 counterexample: with the capacity ceiling C = `MAX_PENDING` = 100,
after C+1 = 101 consecutive `create` calls on an initially empty store (no
intervening `validate`, no TTL expiry), the token returned by the first
`create` still validates successfully — it has not been evicted, because
`cleanup` runs before the insertion, when the map holds only 100 entries. -/
theorem eviction_after_101_counterexample :
    (validate "t0" 0 "Q" Json.null
        (createMany ((List.range (MAX_PENDING + 1)).map (fun i => "t" ++ toString i))
          0 "DROP" "T" "Q" Json.null ⟨[], 300000⟩)).1
      = ⟨true, none⟩ := by decide

/-- C2 (amended): the eviction happens one call later: starting from an
empty store, after C+2 consecutive `create` calls with pairwise-distinct
fresh tokens, no intervening `validate` and no TTL expiry, the token
returned by the first `create` has been evicted, so validating it fails
(with the not-found reason). -/
theorem create_overflow_evicts_oldest (ttl now : Nat)
    (operationType target query : String) (params : Json)
    (t0 : String) (rest : List String)
    (hlen : (t0 :: rest).length = MAX_PENDING + 2)
    (hnodup : (t0 :: rest).Nodup) :
    (validate t0 now query params
        (createMany (t0 :: rest) now operationType target query params ⟨[], ttl⟩)).1
      = ⟨false, some "Token not found or already expired."⟩ := by
  -- split the token list as (t0 :: mid) ++ [tlast]
  have hrest_ne : rest ≠ [] := by
    intro h
    rw [h] at hlen
    simp [MAX_PENDING] at hlen
  obtain ⟨mid, tlast, hmid⟩ : ∃ mid tlast, rest = mid ++ [tlast] :=
    ⟨rest.dropLast, rest.getLast hrest_ne, (List.dropLast_append_getLast hrest_ne).symm⟩
  subst hmid
  have hsplit : t0 :: (mid ++ [tlast]) = (t0 :: mid) ++ [tlast] := rfl
  rw [hsplit]
  have hmidlen : mid.length = MAX_PENDING := by
    simp at hlen
    omega
  -- the state after the first C+1 creates
  have hfirst : createMany (t0 :: mid) now operationType target query params ⟨[], ttl⟩
      = ⟨(t0 :: mid).map
          (fun t => (t, mkEntry t now operationType target query params)), ttl⟩ := by
    have hnd : ((t0 :: mid) : List String).Nodup := (List.nodup_append.mp hnodup).1
    exact createMany_fresh now operationType target query params (t0 :: mid) ⟨[], ttl⟩
      (by intro e he; simp at he) (by simpa using hnd) (by simp [hmidlen])
  have hfold : createMany ((t0 :: mid) ++ [tlast]) now operationType target query params ⟨[], ttl⟩
      = (create tlast now operationType target query params
          (createMany (t0 :: mid) now operationType target query params ⟨[], ttl⟩)).2 := by
    unfold createMany
    rw [List.foldl_append]
    rfl
  rw [hfold, hfirst]
  -- the (C+2)-th create runs cleanup on 101 same-age entries: it keeps all
  -- of them, then evicts the oldest — the head — and appends the new entry
  have hentries : ∀ e ∈ (t0 :: mid).map
      (fun t => (t, mkEntry t now operationType target query params)),
      e.2.createdAt = now := by
    intro e he
    rcases List.mem_map.mp he with ⟨t, _, rfl⟩
    rfl
  have hclean : cleanup now
      (⟨(t0 :: mid).map (fun t => (t, mkEntry t now operationType target query params)),
        ttl⟩ : ConfirmationStore)
      = ⟨mid.map (fun t => (t, mkEntry t now operationType target query params)), ttl⟩ := by
    unfold cleanup
    dsimp only
    have hfilter : ((t0 :: mid).map
        (fun t => (t, mkEntry t now operationType target query params))).filter
          (fun p => ¬ now - p.2.createdAt > ttl)
        = (t0 :: mid).map (fun t => (t, mkEntry t now operationType target query params)) := by
      apply List.filter_eq_self.mpr
      intro p hp
      rw [hentries p hp]
      simp
    rw [hfilter]
    rw [if_pos (by simp [hmidlen, MAX_PENDING])]
    rw [sortByCreatedAt_const now _ hentries]
    have hlen101 : ((t0 :: mid).map
        (fun t => (t, mkEntry t now operationType target query params))).length
        = MAX_PENDING + 1 := by
      simp [hmidlen]
    rw [hlen101]
    have hexcess : MAX_PENDING + 1 - MAX_PENDING = 1 := by omega
    rw [hexcess]
    simp only [List.map_cons, List.take_succ_cons, List.take_zero]
    have ht0mid : t0 ∉ mid := by
      have := (List.nodup_cons.mp hnodup).1
      intro hmem
      exact this (List.mem_append.mpr (Or.inl hmem))
    congr 1
    rw [List.filter_cons]
    simp only [List.map_cons, List.map_nil]
    rw [if_neg (by simp)]
    apply List.filter_eq_self.mpr
    intro p hp
    rcases List.mem_map.mp hp with ⟨t, ht, rfl⟩
    have : t ≠ t0 := fun h => ht0mid (h ▸ ht)
    simp [this]
  show (validate t0 now query params
      (create tlast now operationType target query params _).2).1 = _
  unfold create
  dsimp only
  rw [hclean]
  dsimp only
  rw [show (⟨tlast, operationType, target, hashString query,
      hashString (canonicalStringify params), now, false⟩ : PendingOperation)
      = mkEntry tlast now operationType target query params from rfl]
  -- the final map never contains t0
  have ht0notin : ∀ e ∈ mapSet
      (mid.map (fun t => (t, mkEntry t now operationType target query params)))
      tlast (mkEntry tlast now operationType target query params), e.1 ≠ t0 := by
    intro e he
    have ht0mid : t0 ∉ mid := by
      have := (List.nodup_cons.mp hnodup).1
      intro hmem
      exact this (List.mem_append.mpr (Or.inl hmem))
    have ht0last : tlast ≠ t0 := by
      have := (List.nodup_cons.mp hnodup).1
      intro h
      exact this (List.mem_append.mpr (Or.inr (by simp [h])))
    rcases mem_mapSet he with h | h
    · rw [h]; exact ht0last
    · rcases List.mem_map.mp h with ⟨t, ht, rfl⟩
      exact fun h => ht0mid (h ▸ ht)
  have hnone : mapGet (mapSet
      (mid.map (fun t => (t, mkEntry t now operationType target query params)))
      tlast (mkEntry tlast now operationType target query params)) t0 = none := by
    unfold mapGet
    rw [lookup_eq_none_of_forall_ne ht0notin]
  unfold validate
  rw [hnone]

set_option maxRecDepth 1000000 in
/-- Witness for `create_overflow_evicts_oldest` at 102 concrete tokens. -/
theorem create_overflow_evicts_oldest_witness :
    (("t0" :: (List.range (MAX_PENDING + 1)).map (fun i => "t" ++ toString (i + 1))).length
      = MAX_PENDING + 2) ∧
    (("t0" :: (List.range (MAX_PENDING + 1)).map (fun i => "t" ++ toString (i + 1))).Nodup) ∧
    ((validate "t0" 0 "Q" Json.null
        (createMany ("t0" :: (List.range (MAX_PENDING + 1)).map (fun i => "t" ++ toString (i + 1)))
          0 "DROP" "T" "Q" Json.null ⟨[], 300000⟩)).1
      = ⟨false, some "Token not found or already expired."⟩) :=
  ⟨by decide, by decide,
   create_overflow_evicts_oldest 300000 0 "DROP" "T" "Q" Json.null "t0"
     ((List.range (MAX_PENDING + 1)).map (fun i => "t" ++ toString (i + 1)))
     (by decide) (by decide)⟩

end ConfirmationStore

-- -------------------------------------------------------------------------
-- C4: the DROP flow under allowDangerousOperations = false
-- -------------------------------------------------------------------------

/-- C4 counterexample: a DROP request whose table name fails the name guard
does not terminate in the Forbidden outcome even under
`allowDangerousOperations = false` — the thrown validation error is caught,
the result is the error outcome with `forbidden` absent, and an audit
record with `dryRun = false` is written. -/
theorem drop_forbidden_counterexample :
    ((DropTableTool.run ⟨false, false, false, false, false, false, false⟩ none
        "bad name" false none none "tok" "2024-01-01T00:00:00Z" 0 ⟨[], 300000⟩ true "").mode
      = "error") ∧
    ((DropTableTool.run ⟨false, false, false, false, false, false, false⟩ none
        "bad name" false none none "tok" "2024-01-01T00:00:00Z" 0 ⟨[], 300000⟩ true "").forbidden
      = false) ∧
    ((DropTableTool.run ⟨false, false, false, false, false, false, false⟩ none
        "bad name" false none none "tok" "2024-01-01T00:00:00Z" 0 ⟨[], 300000⟩ true "").logs.map
          (fun l => l.dryRun)
      = [false]) := by
  refine ⟨by decide, by decide, by decide⟩

/-- C4 (amended): for every DROP request whose table name passes the name
guard, under a policy with `allowDangerousOperations = false` the flow
terminates in the Forbidden outcome: the result is marked forbidden with
`success = false`, no confirmation token is issued (the store is untouched
and no token is returned), and no audit record — in particular no
`dryRun = false` execution record — is written. -/
theorem drop_forbidden_terminal (safetyConfig : SafetyConfig)
    (capabilities : Option ServerCapabilities) (tableName : String) (ifExists : Bool)
    (confirmToken : Option String) (elicit : Option ElicitBehavior)
    (freshToken startTime : String) (now : Nat) (store : ConfirmationStore)
    (execOk : Bool) (execError : String)
    (hdanger : safetyConfig.allowDangerousOperations = false)
    (hvalid : validTableName tableName = true) :
    ((DropTableTool.run safetyConfig capabilities tableName ifExists confirmToken
        elicit freshToken startTime now store execOk execError).mode = "forbidden") ∧
    ((DropTableTool.run safetyConfig capabilities tableName ifExists confirmToken
        elicit freshToken startTime now store execOk execError).forbidden = true) ∧
    ((DropTableTool.run safetyConfig capabilities tableName ifExists confirmToken
        elicit freshToken startTime now store execOk execError).success = false) ∧
    ((DropTableTool.run safetyConfig capabilities tableName ifExists confirmToken
        elicit freshToken startTime now store execOk execError).confirmToken = none) ∧
    ((DropTableTool.run safetyConfig capabilities tableName ifExists confirmToken
        elicit freshToken startTime now store execOk execError).store = store) ∧
    ((DropTableTool.run safetyConfig capabilities tableName ifExists confirmToken
        elicit freshToken startTime now store execOk execError).logs = []) := by
  have hrun : DropTableTool.run safetyConfig capabilities tableName ifExists confirmToken
      elicit freshToken startTime now store execOk execError
      = { mode := "forbidden"
          success := false
          message := generateDropForbiddenMessage tableName
            (if ifExists && (match capabilities with
                | some c => c.supportsDropIfExists
                | none => false)
             then "DROP TABLE IF EXISTS [" ++ tableName ++ "]"
             else "DROP TABLE [" ++ tableName ++ "]")
          forbidden := true
          store := store } := by
    unfold DropTableTool.run
    rw [if_neg (by rw [hvalid]; simp)]
    dsimp only
    rw [if_pos (by rw [isDropAllowed, hdanger]; simp)]
  rw [hrun]
  exact ⟨rfl, rfl, rfl, rfl, rfl, rfl⟩

/-- Witness for `drop_forbidden_terminal` at a concrete request. -/
theorem drop_forbidden_terminal_witness :
    ((⟨false, false, false, false, false, true, true⟩ : SafetyConfig).allowDangerousOperations
      = false) ∧
    (validTableName "Users" = true) ∧
    ((DropTableTool.run ⟨false, false, false, false, false, true, true⟩ none
        "Users" false none none "tok" "2024-01-01T00:00:00Z" 0 ⟨[], 300000⟩ true "").mode
      = "forbidden") ∧
    ((DropTableTool.run ⟨false, false, false, false, false, true, true⟩ none
        "Users" false none none "tok" "2024-01-01T00:00:00Z" 0 ⟨[], 300000⟩ true "").logs
      = []) :=
  ⟨by decide, by decide,
   (drop_forbidden_terminal ⟨false, false, false, false, false, true, true⟩ none
     "Users" false none none "tok" "2024-01-01T00:00:00Z" 0 ⟨[], 300000⟩ true ""
     (by decide) (by decide)).1,
   (drop_forbidden_terminal ⟨false, false, false, false, false, true, true⟩ none
     "Users" false none none "tok" "2024-01-01T00:00:00Z" 0 ⟨[], 300000⟩ true ""
     (by decide) (by decide)).2.2.2.2.2⟩

-- -------------------------------------------------------------------------
-- C3 helper lemmas: sortFields is a sort, and sorted field lists with equal
-- lookups are equal
-- -------------------------------------------------------------------------

theorem charListLt_irrefl : ∀ a : List Char, charListLt a a = false
  | [] => rfl
  | c :: cs => by simp [charListLt, charListLt_irrefl cs]

theorem charListLt_asymm : ∀ (a b : List Char),
    charListLt a b = true → charListLt b a = false
  | [], [], h => by cases h
  | [], _ :: _, _ => rfl
  | _ :: _, [], h => by simp [charListLt] at h
  | x :: xs, y :: ys, h => by
    simp only [charListLt] at h ⊢
    by_cases hxy : x.toNat < y.toNat
    · rw [if_neg (Nat.lt_asymm hxy), if_pos hxy]
    · rw [if_neg hxy] at h
      by_cases hyx : y.toNat < x.toNat
      · rw [if_pos hyx] at h; cases h
      · rw [if_neg hyx] at h
        rw [if_neg hyx, if_neg hxy]
        exact charListLt_asymm xs ys h

theorem charListLt_notlt_trans : ∀ (a b c : List Char),
    charListLt b a = false → charListLt c b = false → charListLt c a = false
  | [], _, [], _, _ => rfl
  | [], _, _ :: _, _, _ => rfl
  | _ :: _, [], _, h1, _ => by simp [charListLt] at h1
  | _ :: _, _ :: _, [], _, h2 => by simp [charListLt] at h2
  | x :: xs, y :: ys, z :: zs, h1, h2 => by
    simp only [charListLt] at h1 h2 ⊢
    by_cases hyx : y.toNat < x.toNat
    · rw [if_pos hyx] at h1; cases h1
    · by_cases hzy : z.toNat < y.toNat
      · rw [if_pos hzy] at h2; cases h2
      · rw [if_neg hyx] at h1
        rw [if_neg hzy] at h2
        rw [if_neg (by omega : ¬ z.toNat < x.toNat)]
        by_cases hxz : x.toNat < z.toNat
        · rw [if_pos hxz]
        · rw [if_neg hxz]
          have hxy : ¬ x.toNat < y.toNat := by omega
          have hyz : ¬ y.toNat < z.toNat := by omega
          rw [if_neg hxy] at h1
          rw [if_neg hyz] at h2
          exact charListLt_notlt_trans xs ys zs h1 h2

theorem charListLt_conn : ∀ (a b : List Char), charListLt a b = false →
    charListLt b a = false → a = b
  | [], [], _, _ => rfl
  | [], _ :: _, h, _ => by simp [charListLt] at h
  | _ :: _, [], _, h => by simp [charListLt] at h
  | x :: xs, y :: ys, h, h' => by
    simp only [charListLt] at h h'
    by_cases hxy : x.toNat < y.toNat
    · rw [if_pos hxy] at h; cases h
    · by_cases hyx : y.toNat < x.toNat
      · rw [if_pos hyx] at h'; cases h'
      · rw [if_neg hxy, if_neg hyx] at h
        rw [if_neg hyx, if_neg hxy] at h'
        have hxyeq : x.toNat = y.toNat := by omega
        have hx : x = y := Char.ext (UInt32.ext hxyeq)
        rw [hx, charListLt_conn xs ys h h']

theorem strLt_irrefl (a : String) : strLt a a = false :=
  charListLt_irrefl a.data

theorem strLt_asymm {a b : String} (h : strLt a b = true) : strLt b a = false :=
  charListLt_asymm a.data b.data h

theorem strLt_notlt_trans {a b c : String} (h1 : strLt b a = false)
    (h2 : strLt c b = false) : strLt c a = false :=
  charListLt_notlt_trans a.data b.data c.data h1 h2

theorem strLt_conn {a b : String} (h : strLt a b = false)
    (h' : strLt b a = false) : a = b :=
  String.ext (charListLt_conn a.data b.data h h')

theorem mem_insertByKey {p x : String × Json} :
    ∀ {l : List (String × Json)}, x ∈ insertByKey p l → x = p ∨ x ∈ l
  | [], h => Or.inl (by simpa [insertByKey] using h)
  | q :: qs, h => by
    unfold insertByKey at h
    split at h
    · rcases List.mem_cons.mp h with rfl | h
      · exact Or.inr (List.mem_cons_self _ _)
      · rcases mem_insertByKey h with rfl | h
        · exact Or.inl rfl
        · exact Or.inr (List.mem_cons_of_mem _ h)
    · rcases List.mem_cons.mp h with rfl | h
      · exact Or.inl rfl
      · exact Or.inr h

theorem insertByKey_perm (p : String × Json) :
    ∀ l : List (String × Json), (insertByKey p l).Perm (p :: l)
  | [] => List.Perm.refl _
  | q :: qs => by
    unfold insertByKey
    split
    · exact (List.Perm.cons q (insertByKey_perm p qs)).trans (List.Perm.swap p q qs)
    · exact List.Perm.refl _

theorem sortFields_perm : ∀ l : List (String × Json), (sortFields l).Perm l
  | [] => List.Perm.refl _
  | p :: ps =>
    (insertByKey_perm p (sortFields ps)).trans (List.Perm.cons p (sortFields_perm ps))

theorem insertByKey_pairwise {p : String × Json} :
    ∀ {l : List (String × Json)},
    l.Pairwise (fun u v : String × Json => strLt v.1 u.1 = false) →
    (insertByKey p l).Pairwise (fun u v : String × Json => strLt v.1 u.1 = false)
  | [], _ => by simp [insertByKey]
  | q :: qs, hl => by
    obtain ⟨hq, hqs⟩ := List.pairwise_cons.mp hl
    unfold insertByKey
    split
    · rename_i hlt
      apply List.pairwise_cons.mpr
      refine ⟨?_, insertByKey_pairwise hqs⟩
      intro x hx
      rcases mem_insertByKey hx with rfl | hxl
      · exact strLt_asymm hlt
      · exact hq x hxl
    · rename_i hlt
      have hqp : strLt q.1 p.1 = false := by
        cases hsy : strLt q.1 p.1
        · rfl
        · exact absurd hsy hlt
      apply List.pairwise_cons.mpr
      constructor
      · intro x hx
        rcases List.mem_cons.mp hx with rfl | hxl
        · exact hqp
        · exact strLt_notlt_trans hqp (hq x hxl)
      · exact hl

theorem sortFields_sorted : ∀ l : List (String × Json),
    (sortFields l).Pairwise (fun u v : String × Json => strLt v.1 u.1 = false)
  | [] => List.Pairwise.nil
  | _ :: ps => insertByKey_pairwise (sortFields_sorted ps)

theorem lookup_isSome_of_mem_keys {α β : Type} [BEq α] [LawfulBEq α] :
    ∀ {m : List (α × β)} {k : α}, k ∈ m.map Prod.fst → ∃ v, m.lookup k = some v
  | (a, b) :: m, k, h => by
    by_cases hk : k = a
    · subst hk
      exact ⟨b, by simp [List.lookup]⟩
    · have hbeq : (k == a) = false := by simp [hk]
      have hm : k ∈ m.map Prod.fst := by
        rcases List.mem_cons.mp h with h | h
        · exact absurd h hk
        · exact h
      rcases lookup_isSome_of_mem_keys hm with ⟨v, hv⟩
      exact ⟨v, by simp only [List.lookup, hbeq]; exact hv⟩

theorem lookup_of_perm {α β : Type} [BEq α] [LawfulBEq α] {l₁ l₂ : List (α × β)}
    (h : l₁.Perm l₂) :
    (l₁.map Prod.fst).Nodup → ∀ k, l₁.lookup k = l₂.lookup k := by
  induction h with
  | nil => intro _ k; rfl
  | cons x h ih =>
    obtain ⟨a, b⟩ := x
    intro hnd k
    by_cases hk : k = a
    · subst hk; simp [List.lookup]
    · have hbeq : (k == a) = false := by simp [hk]
      simp only [List.lookup, hbeq]
      exact ih (by simpa using (List.nodup_cons.mp (by simpa using hnd)).2) k
  | swap x y l =>
    obtain ⟨a, b⟩ := x
    obtain ⟨c, d⟩ := y
    intro hnd k
    have hca : c ≠ a := by
      have : (c : α) ∉ (((a, b) :: l).map Prod.fst) :=
        (List.nodup_cons.mp (by simpa using hnd)).1
      intro h
      exact this (by simp [h])
    by_cases hkc : k = c
    · subst hkc
      have h2 : (k == a) = false := by simp [hca]
      simp [List.lookup, h2]
    · by_cases hka : k = a
      · subst hka
        have h1 : (k == c) = false := by simp [hkc]
        simp [List.lookup, h1]
      · have h1 : (k == c) = false := by simp [hkc]
        have h2 : (k == a) = false := by simp [hka]
        simp [List.lookup, h1, h2]
  | trans h₁ h₂ ih₁ ih₂ =>
    intro hnd k
    have hnd2 := ((h₁.map Prod.fst).nodup_iff).mp hnd
    exact (ih₁ hnd k).trans (ih₂ hnd2 k)

theorem lookup_sortFields {l : List (String × Json)} (hnd : (l.map Prod.fst).Nodup)
    (k : String) : (sortFields l).lookup k = l.lookup k :=
  lookup_of_perm (sortFields_perm l)
    (((sortFields_perm l).map Prod.fst).nodup_iff.mpr hnd) k

theorem sorted_strict_of_nodup {l : List (String × Json)}
    (hs : l.Pairwise (fun u v : String × Json => strLt v.1 u.1 = false))
    (hnd : (l.map Prod.fst).Nodup) :
    l.Pairwise (fun u v : String × Json => strLt u.1 v.1 = true) := by
  have hne : List.Pairwise (fun u v : String × Json => u.1 ≠ v.1) l :=
    (List.pairwise_map).mp hnd
  refine (hs.and hne).imp ?_
  rintro u v ⟨h1, h2⟩
  cases hy : strLt u.1 v.1
  · exact absurd (strLt_conn hy h1) h2
  · rfl

theorem eq_of_sorted_lookup :
    ∀ (l m : List (String × Json)),
    l.Pairwise (fun u v : String × Json => strLt u.1 v.1 = true) →
    m.Pairwise (fun u v : String × Json => strLt u.1 v.1 = true) →
    (∀ k, l.lookup k = m.lookup k) → l = m
  | [], [], _, _, _ => rfl
  | [], (b, w) :: m, _, _, h => by
    have hb := h b
    simp [List.lookup] at hb
  | (a, v) :: l, [], _, _, h => by
    have ha := h a
    simp [List.lookup] at ha
  | (a, v) :: l, (b, w) :: m, hl, hm, h => by
    have hlh := (List.pairwise_cons.mp hl).1
    have hlt := (List.pairwise_cons.mp hl).2
    have hmh := (List.pairwise_cons.mp hm).1
    have hmt := (List.pairwise_cons.mp hm).2
    have hanotl : ∀ u, (a, u) ∉ l := by
      intro u hu
      exact absurd (hlh (a, u) hu) (by rw [strLt_irrefl]; exact Bool.false_ne_true)
    have hbnotm : ∀ u, (b, u) ∉ m := by
      intro u hu
      exact absurd (hmh (b, u) hu) (by rw [strLt_irrefl]; exact Bool.false_ne_true)
    have hab : a = b := by
      by_contra hne
      have hba : (a == b) = false := by simp [hne]
      have h1 := h a
      simp only [List.lookup, beq_self_eq_true, hba] at h1
      have h2 := h b
      have hba2 : (b == a) = false := by
        simp only [beq_eq_false_iff_ne]
        exact fun e => hne e.symm
      simp only [List.lookup, beq_self_eq_true, hba2] at h2
      have hma : strLt b a = true := hmh (a, v) (mem_of_lookup_eq_some h1.symm)
      have hmb : strLt a b = true := hlh (b, w) (mem_of_lookup_eq_some h2)
      rw [strLt_asymm hmb] at hma
      cases hma
    subst hab
    have hvw : v = w := by
      have h1 := h a
      simp [List.lookup] at h1
      exact h1
    subst hvw
    have htail : ∀ k, l.lookup k = m.lookup k := by
      intro k
      by_cases hk : k = a
      · subst hk
        have h1 : l.lookup k = none :=
          lookup_eq_none_of_forall_ne (fun e he hek =>
            hanotl e.2 (by rw [← hek]; simpa using he))
        have h2 : m.lookup k = none :=
          lookup_eq_none_of_forall_ne (fun e he hek =>
            hbnotm e.2 (by rw [← hek]; simpa using he))
        rw [h1, h2]
      · have hbeq : (k == a) = false := by simp [hk]
        have h1 := h k
        simp only [List.lookup, hbeq] at h1
        exact h1
    exact congrArg _ (eq_of_sorted_lookup l m hlt hmt htail)

theorem sortFields_ext {l m : List (String × Json)}
    (hl : (l.map Prod.fst).Nodup) (hm : (m.map Prod.fst).Nodup)
    (h : ∀ k, l.lookup k = m.lookup k) : sortFields l = sortFields m := by
  apply eq_of_sorted_lookup
  · exact sorted_strict_of_nodup (sortFields_sorted l)
      (((sortFields_perm l).map Prod.fst).nodup_iff.mpr hl)
  · exact sorted_strict_of_nodup (sortFields_sorted m)
      (((sortFields_perm m).map Prod.fst).nodup_iff.mpr hm)
  · intro k
    rw [lookup_sortFields hl, lookup_sortFields hm]
    exact h k

theorem lookup_sortKeysFields :
    ∀ (fs : List (String × Json)) (k : String),
    (sortKeysFields fs).lookup k = (fs.lookup k).map sortKeys
  | [], _ => rfl
  | (a, v) :: fs, k => by
    by_cases hk : k = a
    · subst hk
      simp [sortKeysFields, List.lookup]
    · have hbeq : (k == a) = false := by simp [hk]
      simp only [sortKeysFields, List.lookup, hbeq]
      exact lookup_sortKeysFields fs k

theorem fieldKeys_sortKeysFields :
    ∀ fs : List (String × Json), fieldKeys (sortKeysFields fs) = fieldKeys fs
  | [] => rfl
  | (a, v) :: fs => by
    show a :: (sortKeysFields fs).map Prod.fst = a :: fs.map Prod.fst
    rw [show (sortKeysFields fs).map Prod.fst = fs.map Prod.fst from
      fieldKeys_sortKeysFields fs]

theorem jsonEquivFields_mem :
    ∀ {fs gs : List (String × Json)}, jsonEquivFields fs gs = true →
    ∀ p ∈ fs, ∃ w, gs.lookup p.1 = some w ∧ jsonEquiv p.2 w = true
  | [], _, _, p, hp => by simp at hp
  | (a, v) :: fs, gs, h, p, hp => by
    rw [jsonEquivFields, Bool.and_eq_true] at h
    rcases List.mem_cons.mp hp with hph | hpt
    · subst hph
      rcases hlk : gs.lookup a with _ | w
      · rw [hlk] at h; simp at h
      · rw [hlk] at h
        exact ⟨w, rfl, h.1⟩
    · exact jsonEquivFields_mem h.2 p hpt

theorem nodupKeysFields_mem :
    ∀ {fs : List (String × Json)}, nodupKeysFields fs = true →
    ∀ p ∈ fs, nodupKeys p.2 = true
  | [], _, p, hp => by simp at hp
  | (a, v) :: fs, h, p, hp => by
    rw [nodupKeysFields, Bool.and_eq_true] at h
    rcases List.mem_cons.mp hp with hph | hpt
    · subst hph; exact h.1
    · exact nodupKeysFields_mem h.2 p hpt

theorem keys_mem_iff_of_equivFields {fs gs : List (String × Json)}
    (hnd : (fieldKeys fs).Nodup) (hlen : fs.length = gs.length)
    (hequiv : jsonEquivFields fs gs = true) :
    ∀ k, (k ∈ fieldKeys fs ↔ k ∈ fieldKeys gs) := by
  have hsub : ∀ k, k ∈ fieldKeys fs → k ∈ fieldKeys gs := by
    intro k hk
    rcases List.mem_map.mp hk with ⟨p, hp, rfl⟩
    rcases jsonEquivFields_mem hequiv p hp with ⟨w, hw, -⟩
    exact List.mem_map.mpr ⟨(p.1, w), mem_of_lookup_eq_some hw, rfl⟩
  have hfinsub : (fieldKeys fs).toFinset ⊆ (fieldKeys gs).toFinset := by
    intro k hk
    exact List.mem_toFinset.mpr (hsub k (List.mem_toFinset.mp hk))
  have hcard : (fieldKeys gs).toFinset.card ≤ (fieldKeys fs).toFinset.card := by
    have h1 : (fieldKeys fs).toFinset.card = fs.length := by
      rw [List.toFinset_card_of_nodup hnd]
      simp [fieldKeys]
    have h2 : (fieldKeys gs).toFinset.card ≤ gs.length := by
      have := List.toFinset_card_le (fieldKeys gs)
      simpa [fieldKeys] using this
    omega
  have hfineq : (fieldKeys fs).toFinset = (fieldKeys gs).toFinset :=
    Finset.eq_of_subset_of_card_le hfinsub hcard
  intro k
  constructor
  · exact hsub k
  · intro hk
    have := List.mem_toFinset.mpr hk
    rw [← hfineq] at this
    exact List.mem_toFinset.mp this

/-- Key-order-equivalent values (with duplicate-free keys at every level)
have identical canonical forms, proved by strong induction on the size of
the first value. -/
theorem sortKeys_eq_of_equiv_aux :
    ∀ (n : Nat) (a b : Json), sizeOf a ≤ n → nodupKeys a = true →
    nodupKeys b = true → jsonEquiv a b = true → sortKeys a = sortKeys b := by
  intro n
  induction n with
  | zero =>
    intro a b hsize
    exfalso
    cases a <;> simp at hsize
  | succ n ih =>
    have hlist : ∀ (xs ys : List Json), sizeOf xs ≤ n → nodupKeysList xs = true →
        nodupKeysList ys = true → jsonEquivList xs ys = true →
        sortKeysList xs = sortKeysList ys := by
      intro xs
      induction xs with
      | nil =>
        intro ys _ _ _ heq
        cases ys with
        | nil => rfl
        | cons y ys => simp [jsonEquivList] at heq
      | cons x xs ihl =>
        intro ys hsz hxs hys heq
        cases ys with
        | nil => simp [jsonEquivList] at heq
        | cons y ys =>
          rw [jsonEquivList, Bool.and_eq_true] at heq
          rw [nodupKeysList, Bool.and_eq_true] at hxs hys
          simp only [sortKeysList]
          rw [ih x y (by simp at hsz; omega) hxs.1 hys.1 heq.1,
            ihl ys (by simp at hsz; omega) hxs.2 hys.2 heq.2]
    intro a b hsize ha hb heq
    cases a with
    | null =>
      cases b with
      | null => rfl
      | bool y => simp [jsonEquiv] at heq
      | num y => simp [jsonEquiv] at heq
      | str y => simp [jsonEquiv] at heq
      | arr ys => simp [jsonEquiv] at heq
      | obj gs => simp [jsonEquiv] at heq
    | bool x =>
      cases b with
      | bool y => simp only [jsonEquiv, decide_eq_true_eq] at heq; rw [heq]
      | null => simp [jsonEquiv] at heq
      | num y => simp [jsonEquiv] at heq
      | str y => simp [jsonEquiv] at heq
      | arr ys => simp [jsonEquiv] at heq
      | obj gs => simp [jsonEquiv] at heq
    | num x =>
      cases b with
      | num y => simp only [jsonEquiv, decide_eq_true_eq] at heq; rw [heq]
      | null => simp [jsonEquiv] at heq
      | bool y => simp [jsonEquiv] at heq
      | str y => simp [jsonEquiv] at heq
      | arr ys => simp [jsonEquiv] at heq
      | obj gs => simp [jsonEquiv] at heq
    | str x =>
      cases b with
      | str y => simp only [jsonEquiv, decide_eq_true_eq] at heq; rw [heq]
      | null => simp [jsonEquiv] at heq
      | bool y => simp [jsonEquiv] at heq
      | num y => simp [jsonEquiv] at heq
      | arr ys => simp [jsonEquiv] at heq
      | obj gs => simp [jsonEquiv] at heq
    | arr xs =>
      cases b with
      | arr ys =>
        rw [jsonEquiv] at heq
        rw [nodupKeys] at ha hb
        simp only [sortKeys]
        rw [hlist xs ys (by simp at hsize; omega) ha hb heq]
      | null => simp [jsonEquiv] at heq
      | bool y => simp [jsonEquiv] at heq
      | num y => simp [jsonEquiv] at heq
      | str y => simp [jsonEquiv] at heq
      | obj gs => simp [jsonEquiv] at heq
    | obj fs =>
      cases b with
      | obj gs =>
        rw [jsonEquiv, Bool.and_eq_true] at heq
        rw [nodupKeys, Bool.and_eq_true] at ha hb
        have hlen : fs.length = gs.length := by
          have := heq.1
          simpa using this
        have hndf : (fieldKeys fs).Nodup := by
          have := ha.1
          simpa using this
        have hndg : (fieldKeys gs).Nodup := by
          have := hb.1
          simpa using this
        simp only [sortKeys]
        congr 1
        apply sortFields_ext
        · rw [show (sortKeysFields fs).map Prod.fst = fieldKeys fs from
            fieldKeys_sortKeysFields fs]
          exact hndf
        · rw [show (sortKeysFields gs).map Prod.fst = fieldKeys gs from
            fieldKeys_sortKeysFields gs]
          exact hndg
        · intro k
          rw [lookup_sortKeysFields, lookup_sortKeysFields]
          cases hfs : fs.lookup k with
          | none =>
            have hknotf : k ∉ fieldKeys fs := by
              intro hk
              rcases lookup_isSome_of_mem_keys (by simpa [fieldKeys] using hk) with ⟨v, hv⟩
              rw [hfs] at hv
              cases hv
            have hknotg : k ∉ fieldKeys gs := by
              intro hk
              exact hknotf ((keys_mem_iff_of_equivFields hndf hlen heq.2 k).mpr hk)
            have hgs : gs.lookup k = none := by
              apply lookup_eq_none_of_forall_ne
              intro e he hek
              exact hknotg (hek ▸ List.mem_map.mpr ⟨e, he, rfl⟩)
            rw [hgs]
          | some v =>
            have hvmem : (k, v) ∈ fs := mem_of_lookup_eq_some hfs
            rcases jsonEquivFields_mem heq.2 (k, v) hvmem with ⟨w, hw, hvw⟩
            rw [hw]
            have hsv : sizeOf v ≤ n := by
              have h1 := List.sizeOf_lt_of_mem hvmem
              have h2 : sizeOf (Json.obj fs) ≤ n + 1 := hsize
              simp at h1 h2
              omega
            have hnv : nodupKeys v = true := nodupKeysFields_mem ha.2 (k, v) hvmem
            have hnw : nodupKeys w = true :=
              nodupKeysFields_mem hb.2 (k, w) (mem_of_lookup_eq_some hw)
            show some (sortKeys v) = some (sortKeys w)
            rw [ih v w hsv hnv hnw hvw]
      | null => simp [jsonEquiv] at heq
      | bool y => simp [jsonEquiv] at heq
      | num y => simp [jsonEquiv] at heq
      | str y => simp [jsonEquiv] at heq
      | arr ys => simp [jsonEquiv] at heq

/-- Key-order-equivalent values canonicalize to the same string. -/
theorem canonicalStringify_eq_of_equiv {a b : Json}
    (ha : nodupKeys a = true) (hb : nodupKeys b = true)
    (h : jsonEquiv a b = true) : canonicalStringify a = canonicalStringify b := by
  unfold canonicalStringify
  rw [sortKeys_eq_of_equiv_aux (sizeOf a) a b (le_refl _) ha hb h]

/-- C3: canonical parameter hashing is key-order independent.  For a params
value `P` and any `P2` equal to `P` up to reordering of object keys at any
nesting depth (with duplicate-free keys, as JavaScript objects have),
`canonicalStringify P = canonicalStringify P2`, and validating a token
created for `(Q, P)` with `(Q, P2)` does not fail with a params mismatch —
it succeeds; whereas validating with any `Pbad` whose parameter values
differ (its canonical serialization, the modelled digest, differs from that
of `P`) fails with the params-mismatch reason. -/
theorem canonical_hash_key_order_independent (s : ConfirmationStore) (token : String)
    (now now1 now2 : Nat) (operationType target query : String) (P P2 Pbad : Json)
    (hP : nodupKeys P = true) (hP2 : nodupKeys P2 = true)
    (hequiv : jsonEquiv P P2 = true)
    (httl1 : now1 - now ≤ s.ttlMs) (httl2 : now2 - now ≤ s.ttlMs)
    (hbad : ¬ canonicalStringify Pbad = canonicalStringify P) :
    canonicalStringify P = canonicalStringify P2 ∧
    ((ConfirmationStore.validate token now1 query P2
        (ConfirmationStore.create token now operationType target query P s).2).1
      = ⟨true, none⟩) ∧
    ((ConfirmationStore.validate token now2 query Pbad
        (ConfirmationStore.create token now operationType target query P s).2).1
      = ⟨false, some "Parameters do not match the original preview."⟩) := by
  have hcan : canonicalStringify P = canonicalStringify P2 :=
    canonicalStringify_eq_of_equiv hP hP2 hequiv
  have hget : ConfirmationStore.mapGet
      (ConfirmationStore.create token now operationType target query P s).2.pending token
      = some ⟨token, operationType, target, query, canonicalStringify P, now, false⟩ := by
    rw [show (ConfirmationStore.create token now operationType target query P s).2.pending
        = ConfirmationStore.mapSet (ConfirmationStore.cleanup now s).pending token
            ⟨token, operationType, target, query, canonicalStringify P, now, false⟩ from rfl]
    exact ConfirmationStore.mapGet_mapSet_self _ _ _
  have httlpres : (ConfirmationStore.create token now operationType target query P s).2.ttlMs
      = s.ttlMs := by
    show (ConfirmationStore.cleanup now s).ttlMs = s.ttlMs
    exact ConfirmationStore.cleanup_ttlMs now s
  refine ⟨hcan, ?_, ?_⟩
  · unfold ConfirmationStore.validate
    rw [hget]
    dsimp only
    rw [httlpres]
    rw [if_neg (by decide : ¬ ((false : Bool) = true))]
    rw [if_neg (Nat.not_lt.mpr httl1)]
    rw [if_neg (not_not_intro (show ConfirmationStore.hashString query = query from rfl))]
    rw [if_neg (not_not_intro (show ConfirmationStore.hashString (canonicalStringify P2)
      = canonicalStringify P from hcan.symm))]
  · unfold ConfirmationStore.validate
    rw [hget]
    dsimp only
    rw [httlpres]
    rw [if_neg (by decide : ¬ ((false : Bool) = true))]
    rw [if_neg (Nat.not_lt.mpr httl2)]
    rw [if_neg (not_not_intro (show ConfirmationStore.hashString query = query from rfl))]
    rw [if_pos (show ¬ ConfirmationStore.hashString (canonicalStringify Pbad)
      = canonicalStringify P from hbad)]

/-- Witness for `canonical_hash_key_order_independent` at concrete nested
params values. -/
theorem canonical_hash_key_order_independent_witness :
    (nodupKeys (Json.obj [("a", Json.num 1), ("b", Json.obj [("c", Json.bool true), ("d", Json.str "x")])]) = true) ∧
    (jsonEquiv (Json.obj [("a", Json.num 1), ("b", Json.obj [("c", Json.bool true), ("d", Json.str "x")])])
      (Json.obj [("b", Json.obj [("d", Json.str "x"), ("c", Json.bool true)]), ("a", Json.num 1)]) = true) ∧
    (canonicalStringify (Json.obj [("a", Json.num 1), ("b", Json.obj [("c", Json.bool true), ("d", Json.str "x")])])
      = canonicalStringify (Json.obj [("b", Json.obj [("d", Json.str "x"), ("c", Json.bool true)]), ("a", Json.num 1)])) ∧
    ((ConfirmationStore.validate "tk" 1 "Q"
        (Json.obj [("b", Json.obj [("d", Json.str "x"), ("c", Json.bool true)]), ("a", Json.num 1)])
        (ConfirmationStore.create "tk" 0 "UPDATE" "T" "Q"
          (Json.obj [("a", Json.num 1), ("b", Json.obj [("c", Json.bool true), ("d", Json.str "x")])])
          ⟨[], 300000⟩).2).1
      = ⟨true, none⟩) ∧
    ((ConfirmationStore.validate "tk" 1 "Q" (Json.obj [("a", Json.num 2), ("b", Json.obj [("c", Json.bool true), ("d", Json.str "x")])])
        (ConfirmationStore.create "tk" 0 "UPDATE" "T" "Q"
          (Json.obj [("a", Json.num 1), ("b", Json.obj [("c", Json.bool true), ("d", Json.str "x")])])
          ⟨[], 300000⟩).2).1
      = ⟨false, some "Parameters do not match the original preview."⟩) :=
  ⟨by decide, by decide,
   (canonical_hash_key_order_independent ⟨[], 300000⟩ "tk" 0 1 1 "UPDATE" "T" "Q"
     (Json.obj [("a", Json.num 1), ("b", Json.obj [("c", Json.bool true), ("d", Json.str "x")])])
     (Json.obj [("b", Json.obj [("d", Json.str "x"), ("c", Json.bool true)]), ("a", Json.num 1)])
     (Json.obj [("a", Json.num 2), ("b", Json.obj [("c", Json.bool true), ("d", Json.str "x")])])
     (by decide) (by decide) (by decide) (by decide) (by decide) (of_decide_eq_false rfl)).1,
   (canonical_hash_key_order_independent ⟨[], 300000⟩ "tk" 0 1 1 "UPDATE" "T" "Q"
     (Json.obj [("a", Json.num 1), ("b", Json.obj [("c", Json.bool true), ("d", Json.str "x")])])
     (Json.obj [("b", Json.obj [("d", Json.str "x"), ("c", Json.bool true)]), ("a", Json.num 1)])
     (Json.obj [("a", Json.num 2), ("b", Json.obj [("c", Json.bool true), ("d", Json.str "x")])])
     (by decide) (by decide) (by decide) (by decide) (by decide) (of_decide_eq_false rfl)).2.1,
   (canonical_hash_key_order_independent ⟨[], 300000⟩ "tk" 0 1 1 "UPDATE" "T" "Q"
     (Json.obj [("a", Json.num 1), ("b", Json.obj [("c", Json.bool true), ("d", Json.str "x")])])
     (Json.obj [("b", Json.obj [("d", Json.str "x"), ("c", Json.bool true)]), ("a", Json.num 1)])
     (Json.obj [("a", Json.num 2), ("b", Json.obj [("c", Json.bool true), ("d", Json.str "x")])])
     (by decide) (by decide) (by decide) (by decide) (by decide) (of_decide_eq_false rfl)).2.2⟩

end MSSQL
